import Mathlib

/-
  Verification development for the Document-Intelligence-Platform repository.

  The TypeScript sources under server/services (gemini.ts, chroma.ts), the
  shared local-embedding module and the REST routes are shallowly embedded
  below.  Text is modelled as a list of characters (one entry per code point),
  JavaScript numbers appearing only as counters are modelled as Nat, and the
  floating-point arithmetic of the embedding / cosine-similarity code is
  modelled over the real numbers.  JavaScript regular expressions are embedded
  through a small backtracking matcher (priority order: left alternative
  first, greedy repetition) which mirrors the backtracking order of the
  JavaScript engine on the patterns used in this code base.
-/

set_option maxRecDepth 40000

namespace DocIntel

/-- Text is a list of characters. -/
abbrev Str := List Char

/-- JavaScript whitespace class (the set used by String.prototype.trim and
    the regex class backslash-s): ASCII whitespace, NBSP, the Unicode space
    separators, line/paragraph separators and the BOM. -/
def isJsSpace (c : Char) : Bool :=
  c == ' ' || c == '\t' || c == '\n' || c == '\x0b' || c == '\x0c' || c == '\r' ||
  c == ' ' || c == ' ' ||
  (decide (' ' ≤ c) && decide (c ≤ ' ')) ||
  c == ' ' || c == ' ' || c == ' ' || c == ' ' ||
  c == '　' || c == '﻿'

/-- Model of String.prototype.trim. -/
def jsTrim (s : Str) : Str :=
  ((s.dropWhile isJsSpace).reverse.dropWhile isJsSpace).reverse

/-- Model of String.prototype.toLowerCase (ASCII range). -/
def jsLower (s : Str) : Str := s.map Char.toLower

/-- Model of String.prototype.toUpperCase (ASCII range). -/
def jsUpper (s : Str) : Str := s.map Char.toUpper

/-- Prefix test on character lists. -/
def isPre : Str → Str → Bool
  | [], _ => true
  | _ :: _, [] => false
  | a :: as, b :: bs => a == b && isPre as bs

/-- Model of String.prototype.includes. -/
def jsIncludes (hay needle : Str) : Bool :=
  (List.range (hay.length + 1)).any (fun i => isPre needle (hay.drop i))

/-- Model of String.prototype.slice with non-negative bounds. -/
def jsSlice (s : Str) (a b : Nat) : Str := (s.take b).drop a

/-- Model of the regex word-character class (ASCII letters, digits, underscore). -/
def isWordChar (c : Char) : Bool := c.isAlphanum || c == '_'

/-- Abstract syntax of the regular expressions used by the sources: empty
    word, character class, concatenation, alternation, greedy star, the single
    capture group a pattern may contain, begin/end anchors and the word
    boundary. -/
inductive RE where
  | eps : RE
  | cls (p : Char → Bool) : RE
  | cat (a b : RE) : RE
  | alt (a b : RE) : RE
  | star (a : RE) : RE
  | lazyStar (a : RE) : RE
  | grp (a : RE) : RE
  | bos : RE
  | eos : RE
  | wordB : RE

/-- Size of a regex term, used to bound the backtracking depth. -/
def RE.size : RE → Nat
  | .eps => 1
  | .cls _ => 1
  | .cat a b => a.size + b.size + 1
  | .alt a b => a.size + b.size + 1
  | .star a => a.size + 1
  | .lazyStar a => a.size + 1
  | .grp a => a.size + 1
  | .bos => 1
  | .eos => 1
  | .wordB => 1

/-- Is the character at position i (if any) a word character. -/
def wordAt (text : Str) (i : Nat) : Bool :=
  match text.get? i with
  | some c => isWordChar c
  | none => false

/-- Backtracking matcher in continuation-passing style.  The continuation
    receives the position after the partial match together with the capture
    span collected so far; alternatives are tried left first and repetition is
    greedy, exactly like the JavaScript engine.  The fuel argument bounds the
    recursion depth. -/
def mat (text : Str) : Nat → RE → Nat → Option (Nat × Nat) →
    (Nat → Option (Nat × Nat) → Option (Nat × Option (Nat × Nat))) →
    Option (Nat × Option (Nat × Nat))
  | 0, _, _, _, _ => none
  | fuel + 1, r, pos, cap, k =>
    match r with
    | .eps => k pos cap
    | .bos => if pos == 0 then k pos cap else none
    | .eos => if pos == text.length then k pos cap else none
    | .wordB =>
        let pre := match pos with
          | 0 => false
          | p + 1 => wordAt text p
        if pre != wordAt text pos then k pos cap else none
    | .cls p =>
        match text.get? pos with
        | some c => if p c then k (pos + 1) cap else none
        | none => none
    | .cat a b => mat text fuel a pos cap (fun p1 c1 => mat text fuel b p1 c1 k)
    | .alt a b =>
        match mat text fuel a pos cap k with
        | some res => some res
        | none => mat text fuel b pos cap k
    | .star a =>
        match mat text fuel a pos cap
            (fun p1 c1 => if p1 == pos then none else mat text fuel (.star a) p1 c1 k) with
        | some res => some res
        | none => k pos cap
    | .lazyStar a =>
        match k pos cap with
        | some res => some res
        | none =>
            mat text fuel a pos cap
              (fun p1 c1 => if p1 == pos then none else mat text fuel (.lazyStar a) p1 c1 k)
    | .grp a => mat text fuel a pos cap (fun p1 _ => k p1 (some (pos, p1)))

/-- Fuel that is always sufficient for the patterns of this code base. -/
def runFuel (r : RE) (text : Str) : Nat := (r.size + 2) * (text.length + 2)

/-- Try to match the regex at the given start position; returns the end
    position and an optional capture span, following the priority order of
    the JavaScript engine. -/
def matchAtPos (text : Str) (r : RE) (pos : Nat) : Option (Nat × Option (Nat × Nat)) :=
  mat text (runFuel r text) r pos none (fun p c => some (p, c))

/-- Model of RegExp.prototype.test: does the regex match anywhere. -/
def reTest (r : RE) (s : Str) : Bool :=
  ((List.range (s.length + 1)).findSome? (matchAtPos s r)).isSome

/-- Leftmost match at or after position i: start, end and capture span. -/
def reFindFrom (r : RE) (s : Str) (i : Nat) : Option (Nat × Nat × Option (Nat × Nat)) :=
  (List.range' i (s.length + 1 - i)).findSome?
    (fun pos => (matchAtPos s r pos).map (fun pc => (pos, pc.1, pc.2)))

/-- Leftmost match in the whole string, as String.prototype.match finds it. -/
def reFind (r : RE) (s : Str) : Option (Nat × Nat × Option (Nat × Nat)) :=
  reFindFrom r s 0

/-- Capture of the first match: the first group if it participated, else the
    whole match (the value m1 or m0 in the sources). -/
def reCapture (r : RE) (s : Str) : Option Str :=
  match reFind r s with
  | none => none
  | some (ms, me, cap) =>
      match cap with
      | some (cs, ce) => some (jsSlice s cs ce)
      | none => some (jsSlice s ms me)

/-- Worker for the model of String.prototype.split on a regex. -/
def reSplitGo (r : RE) (s : Str) : Nat → Nat → List Str
  | 0, p => [s.drop p]
  | fuel + 1, p =>
    match reFindFrom r s p with
    | none => [s.drop p]
    | some (ms, me, _) =>
        if me ≤ ms then [s.drop p]
        else ((s.drop p).take (ms - p)) :: reSplitGo r s fuel me

/-- Model of String.prototype.split on a regex (the patterns split on in the
    sources never match the empty string). -/
def reSplit (r : RE) (s : Str) : List Str := reSplitGo r s (s.length + 2) 0

/-- Sequence of regexes. -/
def rseq (l : List RE) : RE := l.foldr .cat .eps

/-- Never-matching regex, the unit of alternation. -/
def rnone : RE := .cls (fun _ => false)

/-- Alternation of a list of regexes, first one first. -/
def ralts (l : List RE) : RE := l.foldr .alt rnone

/-- Case-sensitive literal character. -/
def rch (c : Char) : RE := .cls (fun x => x == c)

/-- Case-insensitive literal character (ASCII folding, like flag i). -/
def rchI (c : Char) : RE := .cls (fun x => x.toLower == c.toLower)

/-- Case-sensitive literal word. -/
def rstr (s : String) : RE := rseq (s.toList.map rch)

/-- Case-insensitive literal word. -/
def rstrI (s : String) : RE := rseq (s.toList.map rchI)

/-- Greedy option, as the question-mark quantifier. -/
def rOpt (r : RE) : RE := .alt r .eps

/-- Greedy plus quantifier. -/
def rPlus (r : RE) : RE := .cat r (.star r)

/-- Lazy plus quantifier. -/
def rPlusL (r : RE) : RE := .cat r (.lazyStar r)

/-- Greedy counted repetition: up to n further copies. -/
def rOptN (r : RE) : Nat → RE
  | 0 => .eps
  | n + 1 => .alt (.cat r (rOptN r n)) .eps

/-- Whitespace class of the regexes. -/
def rws : RE := .cls isJsSpace

/-- Star of whitespace. -/
def rwsS : RE := .star rws

/-- Plus of whitespace. -/
def rwsP : RE := rPlus rws

/-- Digit class of the regexes. -/
def rdigit : RE := .cls Char.isDigit

/-- Word-character class of the regexes. -/
def rword : RE := .cls isWordChar

/-- Dot of the regexes: any character but a line terminator. -/
def rdot : RE :=
  .cls (fun c => !(c == '\n' || c == '\r' || c == ' ' || c == ' '))

/-- Greedy star of dot, for the dot-star idiom. -/
def rdotS : RE := .star rdot

/-
  Document type detection (gemini.ts, detectDocumentType).  The function
  lowercases the text first and all its patterns carry the i flag, so the
  patterns are embedded as lowercase literals matched against the lowered
  text.
-/

/-- The seven document kinds of the union type DocumentTypeKind. -/
inductive DocType where
  | contract : DocType
  | invoice : DocType
  | identity_document : DocType
  | nda : DocType
  | sla : DocType
  | purchase_order : DocType
  | unknown : DocType
deriving DecidableEq

/-- String value of a document kind, as stored by the pipeline. -/
def docTypeStr : DocType → Str
  | .contract => ("contract").toList
  | .invoice => ("invoice").toList
  | .identity_document => ("identity_document").toList
  | .nda => ("nda").toList
  | .sla => ("sla").toList
  | .purchase_order => ("purchase_order").toList
  | .unknown => ("unknown").toList

/-- The twenty contract indicator patterns of detectDocumentType. -/
def contractIndicators : List RE :=
  [ rstr ("agreement"), rstr ("contract"), rstr ("parties"),
    rseq [rstr ("between"), rwsP, .cls Char.isLower],
    rstr ("whereas"), rstr ("hereby"),
    rseq [rstr ("term"), rOpt (rch 's'), rwsS, rstr ("and"), rwsS, rstr ("conditions")],
    rstr ("termination"), rstr ("confidentiality"), rstr ("liability"),
    rstr ("indemnif"),
    rseq [rstr ("governing"), rwsS, rstr ("law")],
    rstr ("arbitration"),
    rseq [rstr ("service"), rwsS, rstr ("agreement")],
    rseq [rstr ("master"), rwsS, rstr ("agreement")],
    rseq [rstr ("this"), rwsP, rstr ("agreement")],
    rseq [rstr ("party"), rwsP, rstr ("of"), rwsP, rstr ("the")],
    rstr ("witnesseth"), rstr ("herein"), rstr ("notwithstanding") ]

/-- First NDA test of detectDocumentType. -/
def ndaPat1 : RE :=
  ralts [ rstr ("nda"),
          rseq [rstr ("non"), rOpt (.cls (fun c => c == '-' || isJsSpace c)), rstr ("disclosure")],
          rseq [rstr ("confidentiality"), rwsS, rstr ("agreement")] ]

/-- Second NDA test of detectDocumentType. -/
def ndaPat2 : RE :=
  ralts [ rstr ("confidential"), rstr ("proprietary"),
          rseq [rstr ("trade"), rwsS, rstr ("secret")] ]

/-- SLA test of detectDocumentType. -/
def slaPat : RE :=
  ralts [ rstr ("sla"),
          rseq [rstr ("service"), rwsS, rstr ("level"), rwsS, rstr ("agreement")],
          rseq [rstr ("service"), rwsS, rstr ("guarantee")],
          rstr ("uptime"),
          rseq [rstr ("response"), rwsS, rstr ("time")] ]

/-- Purchase-order test of detectDocumentType. -/
def poPat : RE :=
  ralts [ rseq [rstr ("purchase"), rwsS, rstr ("order")],
          rseq [rch 'p', rOpt (rch '.'), rch 'o', rOpt (rch '.')],
          rseq [rstr ("po"), rwsS, rstr ("number")],
          rseq [rstr ("order"), rwsS, rstr ("date")],
          rseq [rstr ("ship"), rwsS, rstr ("to")],
          rseq [rstr ("vendor"), rwsS, rstr ("quote")] ]

/-- The fourteen invoice indicator patterns of detectDocumentType. -/
def invoiceIndicators : List RE :=
  [ rseq [rstr ("tax"), rwsS, rstr ("invoice")],
    rseq [rstr ("invoice"), rwsS, rstr ("number")],
    rseq [rstr ("bill"), rwsS, rstr ("to"), rwsS, rch ':'],
    rseq [rstr ("gst"), rwsS, rstr ("invoice")],
    rseq [rstr ("vendor"), rwsS, rch ':'],
    rseq [rstr ("bill"), rwsS, rstr ("amount")],
    rstr ("subtotal"),
    rseq [rstr ("grand"), rwsS, rstr ("total")],
    rseq [rstr ("due"), rwsS, rstr ("date")],
    rseq [rstr ("payment"), rwsS, rstr ("terms"), rdotS, rstr ("days")],
    rseq [rstr ("net"), rwsS, rPlus rdigit, rwsS, rstr ("days")],
    rseq [rstr ("invoice"), rwsS, rstr ("date")],
    rseq [rstr ("total"), rwsS, rstr ("amount")],
    rseq [rstr ("balance"), rwsS, rstr ("due")] ]

/-- The seven identity-document indicator patterns of detectDocumentType. -/
def idIndicators : List RE :=
  [ rseq [rstr ("driver"), rOpt (rch '\''), rOpt (rch 's'), rwsS,
          rstr ("licen"), .cls (fun c => c == 's' || c == 'c'), rch 'e'],
    rseq [rstr ("identification"), rwsS, .alt (rstr ("card")) (rstr ("document"))],
    rseq [rstr ("id"), rwsS, rstr ("card")],
    rseq [rstr ("date"), rwsS, rstr ("of"), rwsS, rstr ("birth")],
    rstr ("expiry"),
    rseq [rstr ("customer"), rwsS, rstr ("number")],
    rseq [rstr ("license"), rwsS, rstr ("number")] ]

/-- Embedding of detectDocumentType from gemini.ts. -/
def detectDocumentType (rawText : Str) : DocType :=
  let t := jsLower rawText
  if rawText.length < 20 then .unknown
  else
    let contractScore := (contractIndicators.filter (fun p => reTest p t)).length
    if 3 ≤ contractScore ∨ (jsIncludes t (("agreement").toList) ∧ 2 ≤ contractScore) then
      .contract
    else if reTest ndaPat1 t && reTest ndaPat2 t then .nda
    else if reTest slaPat t then .sla
    else if reTest poPat t then .purchase_order
    else if 3 ≤ (invoiceIndicators.filter (fun p => reTest p t)).length then .invoice
    else if 2 ≤ (idIndicators.filter (fun p => reTest p t)).length then .identity_document
    else if 1 ≤ contractScore then .contract
    else .unknown

/-- Specification twin of detectDocumentType, written from the words of the
    claim: unknown for every input shorter than 20 characters; contract
    whenever at least 3 contract indicators match the lowercased text, or the
    text contains the word agreement and at least 2 indicators match;
    otherwise the remaining types in the fixed order nda, sla,
    purchase_order, invoice requiring at least 3 invoice indicators,
    identity_document requiring at least 2 identity indicators; then contract
    if at least one contract indicator matched and unknown otherwise. -/
def detectDocumentTypeSpec (rawText : Str) : DocType :=
  let t := jsLower rawText
  let matchCount := fun (ps : List RE) => ps.countP (fun p => reTest p t)
  if rawText.length < 20 then .unknown
  else if matchCount contractIndicators ≥ 3 then .contract
  else if jsIncludes t (("agreement").toList) ∧ matchCount contractIndicators ≥ 2 then .contract
  else if reTest ndaPat1 t ∧ reTest ndaPat2 t then .nda
  else if reTest slaPat t then .sla
  else if reTest poPat t then .purchase_order
  else if matchCount invoiceIndicators ≥ 3 then .invoice
  else if matchCount idIndicators ≥ 2 then .identity_document
  else if matchCount contractIndicators ≥ 1 then .contract
  else .unknown

/-
  Field, section and table extraction heuristics (gemini.ts).
-/

/-- An extracted field as stored on the document structure.  The bounding box
    and the reviewed flag added by the database mapping are constants and are
    not modelled; the confidence score is recorded in hundredths (the sources
    use the decimal fractions 0.85 and 0.88). -/
structure ExtractedField where
  fieldName : Str
  value : Str
  pageNumber : Nat
  confidenceScore : Nat
deriving DecidableEq

/-- Class of characters other than a newline. -/
def rnonNl : RE := .cls (fun c => !(c == '\n'))

/-- Greedy repetition of non-newline characters. -/
def rnonNlP : RE := rPlus rnonNl

/-- Lazy repetition of non-newline characters. -/
def rnonNlPL : RE := rPlusL rnonNl

/-- Class for digits and commas. -/
def rdigitComma : RE := .cls (fun c => c.isDigit || c == ',')

/-- Class for a colon or whitespace. -/
def rcolonWs : RE := .cls (fun c => c == ':' || isJsSpace c)

/-- Quote class of the Client and Service Provider patterns. -/
def rquote : RE := .cls (fun c => c == '"' || c == '\'')

/-- Company-name class of the Client and Service Provider patterns. -/
def rcompanyChar : RE :=
  .cls (fun c => c.isAlphanum || isJsSpace c || c == '.' || c == ',' || c == '&')

/-- Legal-suffix alternative of the Client and Service Provider patterns. -/
def rlegalSuffix : RE :=
  ralts [ rseq [rstrI ("pvt"), rOpt (rch '.')], rstrI ("private"), rstrI ("limited"),
          rseq [rstrI ("ltd"), rOpt (rch '.')], rseq [rstrI ("inc"), rOpt (rch '.')],
          rstrI ("llc") ]

/-- The fourteen patterns of extractFieldsFromText, with their field names. -/
def fieldExtractionPatterns : List (Str × RE) :=
  [ (("Invoice Number").toList,
     rseq [rstrI ("invoice"), rwsS, rstrI ("number"), rwsS, rch ':', rwsS,
           .grp (rPlus (.cls (fun c => !(isJsSpace c))))]),
    (("Invoice Date").toList,
     rseq [rstrI ("invoice"), rwsS, rstrI ("date"), rwsS, rch ':', rwsS,
           .grp rnonNlPL, .alt (rseq [rwsP, rstrI ("vendor")]) (rseq [rwsS, .eos])]),
    (("Vendor").toList,
     rseq [rstrI ("vendor"), rwsS, rch ':', rwsS,
           .grp rnonNlPL, .alt (rseq [rwsP, rstrI ("bill")]) (rseq [rwsS, .eos])]),
    (("Bill To").toList,
     rseq [rstrI ("bill"), rwsS, rstrI ("to"), rwsS, rch ':', rwsS,
           .grp rnonNlPL, .alt (rseq [rwsP, rstrI ("payment")]) (rseq [rwsS, .eos])]),
    (("Payment Terms").toList,
     rseq [rstrI ("payment"), rwsS, rstrI ("terms"), rwsS, rch ':', rwsS, .grp rnonNlP]),
    (("Subtotal").toList,
     rseq [rstrI ("subtotal"), rwsS, rch ':', rwsS, .grp rnonNlP]),
    (("GST").toList,
     rseq [rstrI ("gst"), rwsS, rch '(', .star (.cls (fun c => !(c == ')'))), rch ')',
           rwsS, rch ':', rwsS, .grp rnonNlP]),
    (("Grand Total").toList,
     rseq [rstrI ("grand"), rwsS, rstrI ("total"), rwsS, rch ':', rwsS, .grp rnonNlP]),
    (("Due Date").toList,
     rseq [rstrI ("due"), rwsS, rstrI ("date"), rwsS, rch ':', rwsS, .grp rnonNlP]),
    (("Parties").toList,
     rseq [.alt (rseq [rstrI ("partie"), rOpt (rchI 's')]) (rstrI ("between")),
           rwsS, rPlus rcolonWs,
           .grp (rseq [rnonNl, rnonNl, rnonNl, rOptN rnonNl 117])]),
    (("Effective Date").toList,
     rseq [rstrI ("effective"), rwsS, rstrI ("date"), rwsS, rPlus rcolonWs, .grp rnonNlP]),
    (("Term").toList,
     rseq [.alt (rstrI ("term")) (rstrI ("duration")), rwsS, rPlus rcolonWs, .grp rnonNlP]),
    (("Client").toList,
     rseq [.grp (rseq [rPlus rcompanyChar, rOpt rlegalSuffix]),
           rwsS, rch '(', rwsS, rOpt rquote, rstrI ("client"), rOpt rquote, rwsS, rch ')']),
    (("Service Provider").toList,
     rseq [.grp (rseq [rPlus rcompanyChar, rOpt rlegalSuffix]),
           rwsS, rch '(', rwsS, rOpt rquote, rstrI ("service"), rwsS, rstrI ("provider"),
           rOpt rquote, rwsS, rch ')']) ]

/-- Removal of a leading match of the anchored pattern whitespace-between-
    whitespace, as in the value post-processing of extractFieldsFromText. -/
def stripLeadingBetween (v : Str) : Str :=
  match matchAtPos v (rseq [rwsS, rstrI ("between"), rwsP]) 0 with
  | some (e, _) => v.drop e
  | none => v

/-- Embedding of extractFieldsFromText from gemini.ts. -/
def extractFieldsFromText (rawText : Str) : List ExtractedField :=
  fieldExtractionPatterns.foldr
    (fun (nr : Str × RE) acc =>
      match reCapture nr.2 rawText with
      | some captured =>
          { fieldName := nr.1,
            value := jsTrim (stripLeadingBetween (jsTrim captured)),
            pageNumber := 1, confidenceScore := 85 } :: acc
      | none => acc)
    []

/-- The seven patterns of extractIdFieldsFromText, with their field names. -/
def idFieldPatterns : List (Str × RE) :=
  [ (("Name").toList,
     rseq [.alt (rstrI ("name")) (rseq [rstrI ("customer"), rwsS, rstrI ("name")]),
           rwsS, rch ':', rwsS, .grp rnonNlP]),
    (("Name").toList,
     .grp (rseq [.wordB, .cls Char.isUpper, rPlus (.cls Char.isLower), rch ',', rwsS,
                 .cls Char.isUpper, rPlus (.cls Char.isLower), .wordB])),
    (("Date of Birth").toList,
     rseq [.alt (rseq [rstrI ("date"), rwsS, rstrI ("of"), rwsS, rstrI ("birth")])
                (rstrI ("dob")),
           rwsS, rch ':', rwsS, .grp rnonNlP]),
    (("Customer Number").toList,
     rseq [rstrI ("customer"), rwsS, rstrI ("number"), rwsS, rch ':', rwsS,
           .grp (rPlus rdigit)]),
    (("License Number").toList,
     rseq [rstrI ("licen"), .cls (fun c => c.toLower == 's' || c.toLower == 'c'), rchI 'e',
           rwsS, .alt (rstrI ("number")) (rseq [rstrI ("no"), rOpt (rch '.')]),
           rwsS, rch ':', rwsS, .grp rnonNlP]),
    (("Expiry").toList,
     rseq [ralts [rstrI ("expiry"),
                  rseq [rstrI ("date"), rwsS, rstrI ("of"), rwsS, rstrI ("expiry")],
                  rseq [rstrI ("exp"), rOpt (rch '.')]],
           rwsS, rch ':', rwsS, .grp rnonNlP]),
    (("Address").toList,
     rseq [rstrI ("address"), rwsS, rch ':', rwsS, .grp rnonNlP]) ]

/-- Embedding of extractIdFieldsFromText from gemini.ts: first match of each
    pattern, deduplicated on the name joined with the first 50 characters of
    the value. -/
def extractIdFieldsFromText (rawText : Str) : List ExtractedField :=
  (idFieldPatterns.foldl
    (fun (acc : List Str × List ExtractedField) nr =>
      match reCapture nr.2 rawText with
      | some captured =>
          let value := jsTrim captured
          let key := nr.1 ++ (':' :: value.take 50)
          if acc.1.contains key then acc
          else (key :: acc.1,
                acc.2 ++ [{ fieldName := nr.1, value := value,
                            pageNumber := 1, confidenceScore := 88 }])
      | none => acc)
    ([], [])).2

/-- A document section. -/
structure DocSection where
  title : Str
  content : Str
  pageNumber : Nat
deriving DecidableEq

/-- Pattern for a line break. -/
def rlineBreak : RE := rseq [rOpt (rch '\r'), rch '\n']

/-- Pattern for a blank line separating blocks. -/
def rblankLine : RE := rseq [rch '\n', rwsS, rch '\n']

/-- Removal of a trailing whitespace-colon-whitespace run, as in the title
    post-processing of extractSectionsFromText. -/
def stripTrailingColon (s : Str) : Str :=
  match reFind (rseq [rwsS, rch ':', rwsS, .eos]) s with
  | some (ms, _, _) => s.take ms
  | none => s

/-- Header test of extractSectionsFromText. -/
def isHeaderLine (first : Str) : Bool :=
  decide (first.length < 80) &&
  (first == jsUpper first ||
   reTest (rseq [rch ':', rwsS, .eos]) first ||
   reTest (rseq [.bos,
                 .grp (ralts [rstrI ("section"), rstrI ("article"),
                              rstrI ("clause"), rstrI ("part")]),
                 rwsP, rPlus rdigit]) first)

/-- Join of lines with a newline, as Array.prototype.join. -/
def joinLines (l : List Str) : Str := (l.intersperse ['\n']).flatten

/-- Embedding of extractSectionsFromText from gemini.ts. -/
def extractSectionsFromText (rawText : Str) : List DocSection :=
  let blocks := ((reSplit rblankLine rawText).map jsTrim).filter (fun b => !b.isEmpty)
  let sections := blocks.foldr
    (fun block acc =>
      let lines := reSplit rlineBreak block
      let first := jsTrim (lines.headD [])
      let isHeader := isHeaderLine first
      let title := if isHeader then stripTrailingColon first else ("Content").toList
      let content := if isHeader then jsTrim (joinLines (lines.drop 1)) else block
      if 0 < content.length then
        { title := title, content := content, pageNumber := 1 } :: acc
      else acc)
    []
  if 0 < sections.length then sections
  else [{ title := ("Document").toList, content := rawText.take 5000, pageNumber := 1 }]

/-- A detected table row. -/
structure TableRow where
  cells : List Str
deriving DecidableEq

/-- A detected table. -/
structure DocTable where
  pageNumber : Nat
  headers : List Str
  rows : List TableRow
deriving DecidableEq

/-- Fully anchored digits test. -/
def rallDigits : RE := rseq [.bos, rPlus rdigit, .eos]

/-- Fully anchored digits-comma-dot amount test. -/
def ramount : RE := rseq [.bos, rPlus rdigitComma, rOpt (rch '.'), .star rdigit, .eos]

/-- Cell separator pattern: two or more whitespace characters or tabs. -/
def rcellSep : RE := .alt (rseq [rws, rPlus rws]) (rPlus (rch '\t'))

/-- Trimmed non-empty lines of a page, shared by the two table detectors. -/
def tableLines (pageText : Str) : List Str :=
  ((reSplit rlineBreak pageText).map jsTrim).filter (fun l => !l.isEmpty)

/-- Whitespace split into non-empty parts, as split on whitespace-plus
    followed by the Boolean filter. -/
def splitParts (line : Str) : List Str :=
  (reSplit rwsP line).filter (fun p => !p.isEmpty)

/-- Embedding of detectInvoiceTable from gemini.ts. -/
def detectInvoiceTable (pageText : Str) (pageNumber : Nat) : Option DocTable :=
  let lines := tableLines pageText
  let headerIdx := lines.findIdx?
    (fun l => reTest (rseq [rstrI ("item"), rwsP, rstrI ("description")]) l &&
              reTest (rstrI ("quantity")) l &&
              (reTest (.alt (rstrI ("total")) (rseq [rstrI ("unit"), rwsS, rstrI ("price")])) l ||
               reTest (rPlus rdigitComma) l))
  match headerIdx with
  | none => none
  | some idx =>
      let headers := [("Item").toList, ("Description").toList, ("Quantity").toList,
                      ("Unit Price").toList, ("Total").toList]
      let dataRows := (lines.drop (idx + 1)).foldr
        (fun line acc =>
          let parts := splitParts line
          if 5 ≤ parts.length ∧ reTest rallDigits (parts.headD []) = true ∧
             reTest rallDigits (parts.getD (parts.length - 3) []) = true then
            { cells := [parts.headD [],
                        joinWithSpace ((parts.drop 1).take (parts.length - 4)),
                        parts.getD (parts.length - 3) [],
                        parts.getD (parts.length - 2) [],
                        parts.getD (parts.length - 1) []] } :: acc
          else acc)
        []
      if 0 < dataRows.length then
        some { pageNumber := pageNumber, headers := headers, rows := dataRows }
      else none
where
  joinWithSpace (l : List Str) : Str := (l.intersperse [' ']).flatten

/-- Cell extraction for one line of detectTablesFromText. -/
def lineCells (line : Str) : List Str :=
  let cells := ((reSplit rcellSep line).map jsTrim).filter (fun c => !c.isEmpty)
  if cells.length < 2 then
    let parts := splitParts line
    if 3 ≤ parts.length ∧
       (reTest rallDigits (parts.headD []) = true ∨ reTest ramount (parts.headD []) = true) ∧
       reTest (rPlus rdigitComma) (parts.getD (parts.length - 1) []) = true then
      parts
    else if 2 ≤ parts.length ∧
            reTest (rPlus rdigitComma) (parts.getD (parts.length - 1) []) = true then
      parts
    else cells
  else cells

/-- Embedding of detectTablesFromText from gemini.ts. -/
def detectTablesFromText (pageText : Str) (pageNumber : Nat) : List DocTable :=
  let tables := match detectInvoiceTable pageText pageNumber with
    | some t => [t]
    | none => []
  let lines := tableLines pageText
  if lines.length < 2 then tables
  else
    let rows := (lines.map lineCells).filter (fun cells => 2 ≤ cells.length)
    if 2 ≤ rows.length ∧ tables.length = 0 then
      let headerRow := rows.headD []
      let dataRows := ((rows.drop 1).filter
        (fun r => r.any (fun c => 0 < c.length))).map (fun cells => { cells := cells : TableRow })
      if 0 < dataRows.length then
        let headers := headerRow.map
          (fun h => if h.isEmpty then
              ("Col").toList ++ (toString (headerRow.indexOf h + 1)).toList
            else h)
        tables ++ [{ pageNumber := pageNumber, headers := headers, rows := dataRows }]
      else tables
    else tables

/-
  The field, section and table assembly of the PDF branch of
  runDocumentPipeline.
-/

/-- Merge of AI-extracted fields with the regex heuristics, as computed by
    the PDF branch of runDocumentPipeline. -/
def mergePdfFields (aiFields heuristicFields : List ExtractedField) : List ExtractedField :=
  if 0 < aiFields.length then
    aiFields ++ heuristicFields.filter
      (fun h => !(aiFields.any (fun a => jsLower a.fieldName == jsLower h.fieldName)))
  else heuristicFields

/-- Identity-document augmentation of runDocumentPipeline: fields from
    extractIdFieldsFromText whose lowercased name is not already present are
    appended. -/
def idAugment (fields idFields : List ExtractedField) : List ExtractedField :=
  (idFields.foldl
    (fun (acc : List ExtractedField × List Str) f =>
      if acc.2.contains (jsLower f.fieldName) then acc
      else (acc.1 ++ [f], jsLower f.fieldName :: acc.2))
    (fields, fields.map (fun f => jsLower f.fieldName))).1

/-- The extracted fields stored on the document structure for a PDF: the
    AI-heuristic merge, augmented with identity fields when the heuristic
    document type is identity_document. -/
def storedPdfFields (aiFields : List ExtractedField) (rawText : Str) : List ExtractedField :=
  let merged := mergePdfFields aiFields (extractFieldsFromText rawText)
  if detectDocumentType rawText = .identity_document then
    idAugment merged (extractIdFieldsFromText rawText)
  else merged

/-- The sections stored on the document structure for a PDF. -/
def storedPdfSections (aiSections : List DocSection) (rawText : Str) : List DocSection :=
  if 0 < aiSections.length then aiSections else extractSectionsFromText rawText

/-- The heuristic per-page tables of the PDF branch. -/
def heuristicTablesOf (pageTexts : List Str) : List DocTable :=
  (pageTexts.enum.map (fun it => detectTablesFromText it.2 (it.1 + 1))).flatten

/-- The tables stored on the document structure for a PDF. -/
def storedPdfTables (aiTables : List DocTable) (pageTexts : List Str) : List DocTable :=
  if 0 < aiTables.length then aiTables else heuristicTablesOf pageTexts

/-
  Text chunking (gemini.ts, chunkText with CHUNK_SIZE 800 and CHUNK_OVERLAP
  100).  The loop is modelled by well-founded recursion on the distance of
  the moving start position to the end of the text.
-/

/-- Last index of a space character, as String.prototype.lastIndexOf. -/
def lastIndexOfSpace (s : Str) : Option Nat :=
  ((s.enum.filter (fun ic => ic.2 == ' ')).map Prod.fst).getLast?

/-- End of the slice examined by one iteration of the chunkText loop. -/
def chunkSliceEnd (text : Str) (start : Nat) : Nat := min (start + 800) text.length

/-- The raw slice emitted by one iteration of the chunkText loop, before
    trimming: when the slice is not final and its last space sits past the
    half-size mark the slice is cut at that space. -/
def chunkEmit (text : Str) (start : Nat) : Str :=
  let e := chunkSliceEnd text start
  let slice := jsSlice text start e
  if e < text.length then
    match lastIndexOfSpace slice with
    | some ls => if 400 < ls then slice.take (ls + 1) else slice
    | none => slice
  else slice

/-- Whether one iteration of the chunkText loop cuts at a word boundary. -/
def chunkWordCut (text : Str) (start : Nat) : Bool :=
  match lastIndexOfSpace (jsSlice text start (chunkSliceEnd text start)) with
  | some ls => decide (400 < ls)
  | none => false

/-- The start position for the next iteration of the chunkText loop. -/
def chunkNextStart (text : Str) (start : Nat) : Nat :=
  let e := chunkSliceEnd text start
  if e < text.length then
    match lastIndexOfSpace (jsSlice text start e) with
    | some ls => if 400 < ls then start + ls + 1 - 100 else e - 100
    | none => e - 100
  else text.length

/-- A space found by lastIndexOfSpace lies inside the list. -/
theorem lastIndexOfSpace_lt_length (s : Str) (ls : Nat)
    (h : lastIndexOfSpace s = some ls) : ls < s.length := by
  unfold lastIndexOfSpace at h
  have hmem := List.mem_of_mem_getLast? h
  rcases List.mem_map.mp hmem with ⟨p, hp, hfst⟩
  have hlt := List.fst_lt_of_mem_enum (List.mem_of_mem_filter hp)
  omega

/-- Progress of the chunkText loop: the start position strictly increases. -/
theorem chunkNextStart_gt (text : Str) (start : Nat) (h : start < text.length) :
    start < chunkNextStart text start := by
  unfold chunkNextStart chunkSliceEnd
  by_cases hbig : start + 800 < text.length
  · have hmin : min (start + 800) text.length = start + 800 := by omega
    rw [hmin, if_pos hbig]
    cases hls : lastIndexOfSpace (jsSlice text start (start + 800)) with
    | none =>
        show start < start + 800 - 100
        omega
    | some ls =>
        show start < if 400 < ls then start + ls + 1 - 100 else start + 800 - 100
        by_cases h400 : 400 < ls
        · rw [if_pos h400]; omega
        · rw [if_neg h400]; omega
  · have hmin : min (start + 800) text.length = text.length := by omega
    rw [hmin, if_neg (lt_irrefl text.length)]
    exact h

/-- Embedding of the while loop of chunkText: emitted chunks are trimmed and
    pushed only when non-empty. -/
def chunkLoop (text : Str) (start : Nat) : List Str :=
  if h : start < text.length then
    let slice := chunkEmit text start
    let rest := chunkLoop text (chunkNextStart text start)
    if (jsTrim slice).isEmpty then rest else jsTrim slice :: rest
  else []
termination_by text.length - start
decreasing_by
  have := chunkNextStart_gt text start h
  omega

/-- The raw slice spans taken by the chunkText loop, as start and end
    positions in the text. -/
def chunkSpans (text : Str) (start : Nat) : List (Nat × Nat) :=
  if h : start < text.length then
    (start, start + (chunkEmit text start).length) :: chunkSpans text (chunkNextStart text start)
  else []
termination_by text.length - start
decreasing_by
  have := chunkNextStart_gt text start h
  omega

/-- Embedding of chunkText from gemini.ts (the page number, passed through
    unchanged, is dropped from the model). -/
def chunkText (text : Str) : List Str :=
  let chunks := chunkLoop text 0
  let fallback := jsTrim (text.take 800)
  if chunks.isEmpty then (if fallback.isEmpty then [] else [fallback]) else chunks

/-
  Risk detection (gemini.ts): the ten rule groups, flag construction,
  deduplication and scoring of runDocumentPipeline.
-/

/-- Severity values produced by the risk rules.  The RiskFlag Mongoose schema
    declares the enum low, medium, high only. -/
inductive Severity where
  | low : Severity
  | medium : Severity
  | high : Severity
  | critical : Severity
deriving DecidableEq

/-- A risk flag as pushed by runDocumentPipeline (document id, suggested
    clause, regulatory mapping and the constant page number are dropped). -/
structure RiskFlag where
  clauseReference : Str
  riskType : Str
  severity : Severity
  explanation : Str
deriving DecidableEq

/-- A risk rule: detection pattern, short risk name, severity, whether the
    rule fires on a missing match, and the clause type used by some
    explanation templates. -/
structure RiskPattern where
  pattern : RE
  risk : Str
  severity : Severity
  missingOnly : Bool
  clauseType : Str

/-- Apostrophe character, used by some risk names. -/
def apoCh : Char := '\''

/-- The MISSING_CLAUSE_RISKS table. -/
def MISSING_CLAUSE_RISKS : List RiskPattern :=
  [ { pattern := ralts [rstrI ("confidential"), rstrI ("confidentiality"),
        rstrI ("non-disclosure"), rstrI ("trade secret"),
        rstrI ("proprietary information"), rstrI ("classified information")],
      risk := ("Confidentiality clause").toList, severity := .high, missingOnly := true,
      clauseType := ("confidentiality").toList },
    { pattern := ralts [rstrI ("termination"), rstrI ("cancel"), rstrI ("terminate"),
        rstrI ("breach of contract"), rstrI ("notice period"), rstrI ("time limit")],
      risk := ("Termination clause").toList, severity := .medium, missingOnly := true,
      clauseType := ("termination").toList },
    { pattern := ralts [rstrI ("limitation of liability"),
        rseq [rstrI ("limit"), rdotS, rstrI ("liability")],
        rseq [rstrI ("cap"), rdotS, rstrI ("liability")],
        rstrI ("maximum liability"),
        rseq [rstrI ("liable"), rdotS, rstrI ("damage")]],
      risk := ("Limitation of liability").toList, severity := .high, missingOnly := true,
      clauseType := ("liability").toList },
    { pattern := ralts [rstrI ("arbitration"), rstrI ("dispute resolution"),
        rstrI ("mediation"), rstrI ("governing law"), rstrI ("jurisdiction"),
        rstrI ("legal proceeding")],
      risk := ("Arbitration/dispute resolution clause").toList, severity := .medium,
      missingOnly := true, clauseType := ("arbitration").toList },
    { pattern := ralts [rstrI ("payment terms"), rstrI ("payment schedule"),
        rstrI ("price"), rstrI ("fees"), rstrI ("compensation"), rstrI ("invoice"),
        rstrI ("payment due"), rstrI ("due date"),
        rseq [rstrI ("net "), rPlus rdigit], rstrI ("advance payment")],
      risk := ("Payment terms").toList, severity := .high, missingOnly := true,
      clauseType := ("payment").toList },
    { pattern := ralts [rstrI ("data protection"), rstrI ("privacy"),
        rstrI ("personal data"), rstrI ("gdpr"), rstrI ("hipaa"),
        rstrI ("information security"), rstrI ("data processing"), rstrI ("pii"),
        rstrI ("sensitive data")],
      risk := ("Data protection clause").toList, severity := .high, missingOnly := true,
      clauseType := ("data_protection").toList } ]

/-- The WEAK_CLAUSE_PATTERNS table. -/
def WEAK_CLAUSE_PATTERNS : List RiskPattern :=
  [ { pattern := rseq [.alt (rstrI ("either party")) (rstrI ("any party")), rwsP,
        .alt (rstrI ("may")) (rstrI ("can")), rwsP,
        ralts [rstrI ("terminate"), rstrI ("cancel"), rstrI ("modify"), rstrI ("change")],
        rwsP,
        ralts [rstrI ("at any time"), rstrI ("without notice"), rstrI ("at will")]],
      risk := ("Unilateral termination without notice period").toList,
      severity := .high, missingOnly := false, clauseType := ("weak_termination").toList },
    { pattern := rseq [ralts [rstrI ("reasonable"), rstrI ("appropriate"),
        rstrI ("necessary"), rstrI ("as needed"), rstrI ("as required")], rwsP,
        ralts [rstrI ("effort"), rstrI ("cost"), rstrI ("time"), rstrI ("determination")]],
      risk := ("Vague ").toList ++ (apoCh :: ("reasonable effort").toList) ++
              (apoCh :: (" language without specific definitions").toList),
      severity := .medium, missingOnly := false, clauseType := ("vague").toList },
    { pattern := ralts [rstrI ("may consider"), rstrI ("may evaluate"),
        rstrI ("may assess"), rstrI ("subject to"), rstrI ("at discretion")],
      risk := ("Discretionary language without clear criteria").toList,
      severity := .medium, missingOnly := false, clauseType := ("vague").toList },
    { pattern := ralts [rstrI ("without prejudice"), rstrI ("sole discretion"),
        rstrI ("absolute discretion"), rstrI ("irrevocable")],
      risk := ("One-sided discretionary language").toList,
      severity := .medium, missingOnly := false, clauseType := ("imbalance").toList },
    { pattern := ralts [rstrI ("as soon as practicable"),
        rstrI ("within a reasonable time"), rstrI ("forthwith"), rstrI ("immediately")],
      risk := ("Undefined timeframes").toList,
      severity := .low, missingOnly := false, clauseType := ("vague").toList },
    { pattern := ralts [rstrI ("indefinitely"), rstrI ("perpetual"),
        rstrI ("forever"), rstrI ("eternal")],
      risk := ("Indefinite obligations").toList,
      severity := .high, missingOnly := false, clauseType := ("weak_termination").toList },
    { pattern := ralts [rstrI ("notwithstanding"), rstrI ("without limiting"),
        rstrI ("except as otherwise")],
      risk := ("Limiting language that may override other clauses").toList,
      severity := .medium, missingOnly := false, clauseType := ("vague").toList } ]

/-- The PAYMENT_RISK_PATTERNS table. -/
def PAYMENT_RISK_PATTERNS : List RiskPattern :=
  [ { pattern := ralts [rstrI ("late payment"), rstrI ("late fee"),
        rseq [rstrI ("penalty"), rdotS, rstrI ("payment")],
        rseq [rstrI ("interest"), rdotS, rstrI ("overdue")],
        rseq [rstrI ("default"), rdotS, rstrI ("payment")]],
      risk := ("Late payment penalty").toList, severity := .medium, missingOnly := true,
      clauseType := [] },
    { pattern := ralts [rstrI ("refund"),
        rseq [rstrI ("return"), rdotS, rstrI ("money")],
        rstrI ("money back"), rstrI ("reimbursement"),
        rseq [rstrI ("cancel"), rdotS, rstrI ("payment")]],
      risk := ("Refund policy").toList, severity := .medium, missingOnly := true,
      clauseType := [] },
    { pattern := ralts [rstrI ("currency"), rstrI ("exchange rate"),
        rstrI ("forex"), rstrI ("conversion")],
      risk := ("Currency/Exchange terms").toList, severity := .medium, missingOnly := true,
      clauseType := [] },
    { pattern := ralts [rstrI ("price adjustment"), rstrI ("price change"),
        rstrI ("escalation"), rstrI ("price revision"),
        rseq [rstrI ("rate"), rdotS, rstrI ("increase")]],
      risk := ("Price adjustment clause").toList, severity := .medium, missingOnly := true,
      clauseType := [] },
    { pattern := ralts [rstrI ("unlimited liability"),
        rseq [rstrI ("unlimited"), rdotS, rstrI ("cost")],
        rseq [rstrI ("unlimited"), rdotS, rstrI ("expense")],
        rseq [rstrI ("no"), rdotS, rstrI ("cap")]],
      risk := ("Unlimited financial exposure").toList, severity := .critical,
      missingOnly := false, clauseType := [] } ]

/-- The COMPLIANCE_RISK_PATTERNS table. -/
def COMPLIANCE_RISK_PATTERNS : List RiskPattern :=
  [ { pattern := ralts [rstrI ("sox"), rstrI ("sarbanes"),
        rstrI ("financial reporting"), rstrI ("audit")],
      risk := ("SOX compliance").toList, severity := .low, missingOnly := true,
      clauseType := [] },
    { pattern := ralts [rseq [rstrI ("iso "), rPlus rdigit],
        rseq [rstrI ("iso"), rdotS, rstrI ("standard")],
        rseq [rstrI ("iso"), rdotS, rstrI ("certification")]],
      risk := ("ISO compliance").toList, severity := .low, missingOnly := true,
      clauseType := [] },
    { pattern := ralts [rstrI ("pci dss"), rstrI ("payment card"),
        rseq [rstrI ("credit card"), rdotS, rstrI ("data")]],
      risk := ("PCI DSS compliance").toList, severity := .low, missingOnly := true,
      clauseType := [] },
    { pattern := ralts [rstrI ("ccpa"), rstrI ("california consumer"),
        rseq [rstrI ("privacy"), rdotS, rstrI ("california")]],
      risk := ("CCPA compliance").toList, severity := .low, missingOnly := true,
      clauseType := [] },
    { pattern := ralts [rseq [rstrI ("industry"), rdotS, rstrI ("standard")],
        rstrI ("best practice"),
        rseq [rstrI ("regulatory"), rdotS, rstrI ("requirement")]],
      risk := ("Industry standards").toList, severity := .low, missingOnly := true,
      clauseType := [] } ]

/-- The IMBALANCE_RISK_PATTERNS table. -/
def IMBALANCE_RISK_PATTERNS : List RiskPattern :=
  [ { pattern := rseq [ralts [rstrI ("vendor"), rstrI ("supplier"),
        rstrI ("service provider"), rstrI ("contractor")], rdotS, rstrI ("shall"),
        rdotS, .alt (rstrI ("not")) (rstrI ("never"))],
      risk := ("Vendor has no obligations while client has all obligations").toList,
      severity := .high, missingOnly := false, clauseType := ("imbalance").toList },
    { pattern := rseq [ralts [rstrI ("client"), rstrI ("customer"), rstrI ("buyer")],
        rdotS, rstrI ("shall"), rdotS,
        ralts [rstrI ("immediately"), rstrI ("at once"), rstrI ("without delay")]],
      risk := ("Client has immediate obligations while vendor has flexibility").toList,
      severity := .medium, missingOnly := false, clauseType := ("imbalance").toList },
    { pattern := ralts [rseq [rstrI ("vendor"), rdotS, rstrI ("not liable")],
        rseq [rstrI ("vendor"), rdotS, rstrI ("immune")],
        rseq [rstrI ("vendor"), rdotS, rstrI ("exempt")]],
      risk := ("Vendor liability exemption").toList,
      severity := .high, missingOnly := false, clauseType := ("imbalance").toList },
    { pattern := ralts [rseq [rstrI ("client"), rdotS, rstrI ("entire risk")],
        rseq [rstrI ("client"), rdotS, rstrI ("assume"), rdotS, rstrI ("risk")],
        rseq [rstrI ("client"), rdotS, rstrI ("responsible"), rdotS, rstrI ("all")]],
      risk := ("All risk on client side").toList,
      severity := .high, missingOnly := false, clauseType := ("imbalance").toList },
    { pattern := ralts [rseq [rstrI ("unilateral"), rdotS, rstrI ("amendment")],
        rseq [rstrI ("unilateral"), rdotS, rstrI ("change")],
        rseq [rstrI ("modify"), rdotS, rstrI ("without notice")]],
      risk := ("One-sided amendment rights").toList,
      severity := .high, missingOnly := false, clauseType := ("imbalance").toList },
    { pattern := ralts [rseq [rstrI ("waiver"), rdotS, rstrI ("any"), rdotS, rstrI ("right")],
        rseq [rstrI ("waive"), rdotS, rstrI ("claim")],
        rseq [rstrI ("waive"), rdotS, rstrI ("remedy")]],
      risk := ("Waiver of rights").toList,
      severity := .medium, missingOnly := false, clauseType := ("imbalance").toList },
    { pattern := ralts [rseq [rstrI ("exclusive"), rdotS, rstrI ("remedy")],
        rseq [rstrI ("sole"), rdotS, rstrI ("remedy")],
        rseq [rstrI ("only"), rdotS, rstrI ("remedy")]],
      risk := ("Exclusive/sole remedy limitations").toList,
      severity := .medium, missingOnly := false, clauseType := ("imbalance").toList } ]

/-- The SIGNATURE_RISK_PATTERNS table. -/
def SIGNATURE_RISK_PATTERNS : List RiskPattern :=
  [ { pattern := ralts [rstrI ("signature"), rstrI ("sign here"),
        rseq [rstrI ("authori"), .cls (fun c => c.toLower == 's' || c.toLower == 'z'),
              rstrI ("ed")],
        rstrI ("signed")],
      risk := ("Signature block").toList, severity := .low, missingOnly := true,
      clauseType := [] },
    { pattern := ralts [rseq [rstrI ("date"), rdotS,
        ralts [rstrI ("of"), rstrI ("execution"), rstrI ("signature"), rstrI ("signing")]],
        rstrI ("executed on"), rstrI ("dated")],
      risk := ("Execution date").toList, severity := .low, missingOnly := true,
      clauseType := [] },
    { pattern := ralts [rstrI ("witness"), rstrI ("notary"), rstrI ("attest"),
        rstrI ("attorney")],
      risk := ("Witness/Notarization").toList, severity := .low, missingOnly := true,
      clauseType := [] },
    { pattern := ralts [rseq [rstrI ("company"), rdotS, rstrI ("name")],
        rseq [rstrI ("entity"), rdotS, rstrI ("name")],
        rseq [rstrI ("party"), rdotS, rstrI ("name")]],
      risk := ("Party identification").toList, severity := .low, missingOnly := true,
      clauseType := [] },
    { pattern := ralts [rstrI ("title"), rstrI ("position"), rstrI ("role"),
        rstrI ("authority")],
      risk := ("Signatory authority").toList, severity := .low, missingOnly := true,
      clauseType := [] } ]

/-- The STRUCTURAL_RISK_PATTERNS table. -/
def STRUCTURAL_RISK_PATTERNS : List RiskPattern :=
  [ { pattern := ralts [rstrI ("table of contents"), rstrI ("index"),
        rstrI ("table of cases")],
      risk := ("Table of contents").toList, severity := .low, missingOnly := true,
      clauseType := [] },
    { pattern := ralts [rstrI ("definitions"), rstrI ("definition of terms"),
        rstrI ("defined terms")],
      risk := ("Definitions section").toList, severity := .medium, missingOnly := true,
      clauseType := [] },
    { pattern := ralts [rstrI ("recitals"), rstrI ("whereas"), rstrI ("preamble"),
        rstrI ("background")],
      risk := ("Recitals/Background").toList, severity := .low, missingOnly := true,
      clauseType := [] },
    { pattern := ralts [rstrI ("schedule"), rstrI ("appendix"), rstrI ("exhibit"),
        rstrI ("annex")],
      risk := ("Schedules/Appendices").toList, severity := .low, missingOnly := true,
      clauseType := [] },
    { pattern := ralts [rstrI ("amendment"), rstrI ("modification"),
        rstrI ("addendum"), rstrI ("revised")],
      risk := ("Amendment clause").toList, severity := .medium, missingOnly := true,
      clauseType := [] },
    { pattern := ralts [rstrI ("entire agreement"), rstrI ("whole agreement"),
        rstrI ("integrated")],
      risk := ("Entire agreement clause").toList, severity := .medium, missingOnly := true,
      clauseType := [] },
    { pattern := ralts [rstrI ("severability"), rstrI ("separability"),
        rseq [rstrI ("invalid"), rdotS, rstrI ("enforce")]],
      risk := ("Severability clause").toList, severity := .medium, missingOnly := true,
      clauseType := [] },
    { pattern := ralts [rseq [rstrI ("notice"), rdotS, rstrI ("address")],
        rseq [rstrI ("contact"), rdotS, rstrI ("information")],
        rstrI ("communication details")],
      risk := ("Notice details").toList, severity := .low, missingOnly := true,
      clauseType := [] } ]

/-- The AMBIGUITY_RISK_PATTERNS table. -/
def AMBIGUITY_RISK_PATTERNS : List RiskPattern :=
  [ { pattern := ralts [rstrI ("reasonable effort"), rstrI ("reasonable time"),
        rstrI ("reasonable cost"), rstrI ("reasonable")],
      risk := ("Undefined ").toList ++ (apoCh :: ("reasonable").toList) ++
              (apoCh :: (" standard").toList),
      severity := .medium, missingOnly := false, clauseType := ("ambiguity").toList },
    { pattern := ralts [rstrI ("as needed"), rstrI ("as necessary"),
        rstrI ("as appropriate"), rstrI ("as required")],
      risk := ("Undefined triggers for actions").toList,
      severity := .medium, missingOnly := false, clauseType := ("ambiguity").toList },
    { pattern := ralts [rstrI ("may consider"), rstrI ("may evaluate"),
        rstrI ("may determine"), rstrI ("at discretion")],
      risk := ("Subjective decision-making without criteria").toList,
      severity := .medium, missingOnly := false, clauseType := ("ambiguity").toList },
    { pattern := ralts [rstrI ("best practice"), rstrI ("industry standard"),
        rstrI ("commercially reasonable")],
      risk := ("Undefined industry standards").toList,
      severity := .medium, missingOnly := false, clauseType := ("ambiguity").toList },
    { pattern := ralts [rstrI ("material breach"), rstrI ("substantial breach"),
        rstrI ("significant default")],
      risk := ("Undefined ").toList ++ (apoCh :: ("material/substantial").toList) ++
              (apoCh :: (" threshold").toList),
      severity := .medium, missingOnly := false, clauseType := ("ambiguity").toList },
    { pattern := ralts [rstrI ("force majeure"), rstrI ("act of god"),
        rstrI ("unforeseeable")],
      risk := ("Undefined force majeure events").toList,
      severity := .low, missingOnly := false, clauseType := ("ambiguity").toList },
    { pattern := ralts [rstrI ("good faith"), rstrI ("fair dealing"),
        rstrI ("honest")],
      risk := ("Undefined good faith standards").toList,
      severity := .low, missingOnly := false, clauseType := ("ambiguity").toList } ]

/-- The METADATA_RISK_PATTERNS table.  The unused capture groups of the
    original patterns are embedded as plain alternations. -/
def METADATA_RISK_PATTERNS : List RiskPattern :=
  [ { pattern := ralts [rseq [rstrI ("effective"), rwsP,
        ralts [rstrI ("date"), rstrI ("on"), rstrI ("from")], rwsS, rPlus rword],
        rseq [rstrI ("effective:"), rwsS, rPlus rword],
        rseq [rstrI ("commencement"), rwsS, rstrI ("date")],
        rseq [rstrI ("start"), rwsS, rstrI ("date")]],
      risk := ("Effective date").toList, severity := .low, missingOnly := true,
      clauseType := [] },
    { pattern := ralts [rseq [rstrI ("expiration"), rwsS, rstrI ("date")],
        rseq [rstrI ("end"), rwsS, rstrI ("date")],
        rseq [rstrI ("termination"), rwsS, rstrI ("date")],
        rstrI ("expiry"),
        rseq [rstrI ("ending"), rwsS, rstrI ("date")]],
      risk := ("Expiration/Termination date").toList, severity := .medium,
      missingOnly := true, clauseType := [] },
    { pattern := ralts [rseq [rstrI ("term"), rwsS,
        ralts [rstrI ("and"), rstrI ("of"), rstrI ("duration"), rstrI ("period")]],
        rseq [rstrI ("duration"), rwsP, rstrI ("of")],
        rseq [rstrI ("period"), rwsP, rstrI ("of")],
        rseq [rPlus rdigit, rwsS, rstrI ("month"), rOpt (rchI 's')],
        rseq [rPlus rdigit, rwsS, rstrI ("year"), rOpt (rchI 's')]],
      risk := ("Term duration").toList, severity := .medium, missingOnly := true,
      clauseType := [] },
    { pattern := ralts [rstrI ("renewal"),
        rseq [rstrI ("automatic"), rwsS, rstrI ("renewal")],
        rseq [rstrI ("extend"), rwsS, rstrI ("term")]],
      risk := ("Renewal terms").toList, severity := .medium, missingOnly := true,
      clauseType := [] },
    { pattern := ralts [rstrI ("deadline"),
        rseq [rstrI ("due"), rwsS, rstrI ("date")],
        rseq [rstrI ("payment"), rwsS, rstrI ("due")],
        rseq [rstrI ("time"), rwsS, rstrI ("is"), rwsS, rstrI ("of"), rwsS,
              rstrI ("the"), rwsS, rstrI ("essence")]],
      risk := ("Critical deadlines").toList, severity := .low, missingOnly := true,
      clauseType := [] } ]

/-- The GST_INVOICE_COMPLIANCE table. -/
def GST_INVOICE_COMPLIANCE : List RiskPattern :=
  [ { pattern := ralts [rstrI ("gstin"), rseq [rstrI ("gst"), rwsS, rstrI ("in")],
        rseq [rstrI ("gst"), rwsS, rstrI ("number")],
        rseq [rstrI ("tax"), rwsS, rstrI ("identification")]],
      risk := ("Missing GSTIN (vendor/buyer)").toList, severity := .high,
      missingOnly := false, clauseType := [] },
    { pattern := ralts [rstrI ("address"),
        rseq [rstrI ("registered"), rwsS, rstrI ("address")],
        rseq [rstrI ("billing"), rwsS, rstrI ("address")]],
      risk := ("Missing full address (supplier/recipient)").toList, severity := .high,
      missingOnly := false, clauseType := [] },
    { pattern := ralts [rseq [rstrI ("place"), rwsS, rstrI ("of"), rwsS, rstrI ("supply")],
        rseq [rstrI ("state"), rwsS, rstrI ("code")],
        rseq [rstrI ("supply"), rwsS, rstrI ("state")]],
      risk := ("Missing Place of Supply").toList, severity := .high,
      missingOnly := false, clauseType := [] },
    { pattern := ralts [rseq [rstrI ("sac"), rwsS, rstrI ("code")],
        rseq [rstrI ("hsn"), rwsS, rstrI ("code")],
        rseq [rstrI ("service"), rwsS, rstrI ("code")],
        rstrI ("harmonized")],
      risk := ("Missing SAC/HSN code for service/goods").toList, severity := .medium,
      missingOnly := false, clauseType := [] } ]

/-- The required fields of REQUIRED_FIELDS for a contract. -/
def requiredFieldsContract : List Str :=
  [("parties").toList, ("effective date").toList, ("term").toList, ("termination").toList]

/-- The required fields of REQUIRED_FIELDS for an invoice. -/
def requiredFieldsInvoice : List Str :=
  [("invoice number").toList, ("date").toList, ("total").toList,
   ("due date").toList, ("vendor").toList, ("bill to").toList]

/-- The required-field list for a document type: the table lookup with the
    contract list as the fallback for types without an entry. -/
def requiredForType (finalDocType : Str) : List Str :=
  if finalDocType = ("contract").toList then requiredFieldsContract
  else if finalDocType = ("invoice").toList then requiredFieldsInvoice
  else if finalDocType = ("identity_document").toList then []
  else requiredFieldsContract

/-- The flexible patterns of fieldPatterns for one required field name. -/
def requiredFieldPatterns (field : Str) : List RE :=
  if field = ("effective date").toList then
    [ rseq [rstrI ("effective"), rwsP,
            ralts [rstrI ("date"), rstrI ("on"), rstrI ("from")], rwsP, rPlus rword],
      rseq [rstrI ("effective:"), rwsS, rPlus rword, rwsP, rPlus rdigit],
      rseq [rstrI ("commencement"), rwsS, rstrI ("date")],
      rseq [rstrI ("start"), rwsS, rstrI ("date"), rwsP,
            rOpt (.alt (rstrI ("of")) (rseq [rstrI ("of"), rwsP]))],
      rseq [rstrI ("effective"), rwsP, rdigit, rOpt rdigit,
            .cls (fun c => c == '/' || c == '_' || c == '-'), rdigit, rOpt rdigit,
            .cls (fun c => c == '/' || c == '_' || c == '-'), rdigit, rdigit,
            rOptN rdigit 2],
      rseq [rstrI ("effective"), rwsP, rPlus rword, rwsP, rdigit, rOpt rdigit,
            rOpt (rch ','), rwsP, rdigit, rdigit, rdigit, rdigit] ]
  else if field = ("termination").toList then
    [ rseq [rstrI ("termination"), rwsS,
            ralts [rstrI ("clause"), rstrI ("date"), rstrI ("period"), rstrI ("notice")]],
      rseq [rstrI ("term"), rdotS, rstrI ("terminat")],
      rseq [rstrI ("notice"), rwsS, rstrI ("period")],
      rseq [rstrI ("ending"), rwsP, rstrI ("date")] ]
  else if field = ("term").toList then
    [ rseq [rstrI ("term"), rwsS,
            ralts [rstrI ("and"), rstrI ("of"), rstrI ("period"), rstrI ("duration")]],
      rseq [rstrI ("duration"), rwsP, rstrI ("of")],
      rseq [rstrI ("period"), rwsP, rstrI ("of")],
      rseq [rPlus rdigit, rwsS, rstrI ("month"), rOpt (rchI 's')],
      rseq [rPlus rdigit, rwsS, rstrI ("year"), rOpt (rchI 's')] ]
  else if field = ("parties").toList then
    [ rseq [rstrI ("between"), rwsP, rPlus rword],
      rseq [rstrI ("by"), rwsP, rstrI ("and"), rwsP, rstrI ("between")],
      rseq [rstrI ("party"), rwsP, .alt (rstrI ("of")) (rseq [rstrI ("of"), rwsP, rstrI ("the")])],
      ralts [rstrI ("incorporated"), rstrI ("company"), rstrI ("pvt"), rstrI ("ltd"),
             rstrI ("limited"), rstrI ("inc.")] ]
  else if field = ("invoice number").toList then
    [ rseq [rstrI ("invoice"), rwsS,
            ralts [rstrI ("no"), rstrI ("number"), rch '#', rch '.'], rwsS, rPlus rdigit],
      rseq [rstrI ("inv"), rwsS, rOpt (.alt (rstrI ("no")) (rch '#')), rwsS, rPlus rdigit] ]
  else if field = ("date").toList then
    [ rseq [rstrI ("date:"), rwsS, rPlus rdigit],
      rseq [rstrI ("dated"), rwsP, rPlus rdigit],
      rseq [rdigit, rOpt rdigit,
            .cls (fun c => c == '/' || c == '_' || c == '-'), rdigit, rOpt rdigit,
            .cls (fun c => c == '/' || c == '_' || c == '-'), rdigit, rdigit,
            rOptN rdigit 2] ]
  else if field = ("total").toList then
    [ rseq [rstrI ("total"), rwsS,
            ralts [rstrI ("amount"), rstrI ("due"), rstrI ("payable")]],
      rseq [rstrI ("grand"), rwsS, rstrI ("total")],
      rseq [rstrI ("inr"), rwsS, rPlus rdigit],
      rseq [rch '$', rwsS, rPlus rdigit] ]
  else if field = ("due date").toList then
    [ rseq [rstrI ("due"), rwsS, rstrI ("date")],
      rseq [rstrI ("payment"), rwsS, rstrI ("due")],
      rseq [rstrI ("payable"), rwsS, rstrI ("by")],
      rseq [rstrI ("net"), rwsS, rPlus rdigit] ]
  else if field = ("vendor").toList then
    [ ralts [rstrI ("vendor"), rstrI ("supplier"), rstrI ("provider"), rstrI ("contractor")] ]
  else if field = ("bill to").toList then
    [ .alt (rseq [rstrI ("bill"), rwsS, rstrI ("to")])
           (rseq [rch ' ', rstrI ("billed"), rwsS, rstrI ("to")]),
      rseq [rstrI ("billing"), rwsS, rstrI ("address")] ]
  else []

/-- Flags of rule group 1 (missing essential clauses). -/
def missingClauseFlags (rawText : Str) : List RiskFlag :=
  MISSING_CLAUSE_RISKS.foldr
    (fun r acc =>
      if !reTest r.pattern rawText &&
         (r.missingOnly || jsIncludes r.risk (("Missing").toList)) then
        { clauseReference := r.risk, riskType := ("missing_clause").toList,
          severity := r.severity,
          explanation := ("Missing essential ").toList ++ r.clauseType ++
            (" clause: ").toList ++ r.risk ++
            (". This is critical for comprehensive contract protection.").toList } :: acc
      else acc)
    []

/-- Flags of rule group 2 (weak clauses). -/
def weakClauseFlags (rawText : Str) : List RiskFlag :=
  WEAK_CLAUSE_PATTERNS.foldr
    (fun w acc =>
      if reTest w.pattern rawText then
        { clauseReference := w.risk, riskType := ("weak_clause").toList,
          severity := w.severity,
          explanation := ("Weak clause detected: ").toList ++ w.risk ++
            (". This language may create ambiguity or unfair terms.").toList } :: acc
      else acc)
    []

/-- Flags of rule group 3 (payment and financial risk). -/
def paymentRiskFlags (rawText : Str) : List RiskFlag :=
  PAYMENT_RISK_PATTERNS.foldr
    (fun p acc =>
      if !reTest p.pattern rawText && p.missingOnly then
        { clauseReference := p.risk, riskType := ("payment_risk").toList,
          severity := p.severity,
          explanation := ("Missing payment term: ").toList ++ p.risk ++
            (". This could lead to financial disputes.").toList } :: acc
      else if reTest p.pattern rawText && p.severity == .critical then
        { clauseReference := p.risk, riskType := ("payment_risk").toList,
          severity := p.severity,
          explanation := ("Critical financial exposure: ").toList ++ p.risk ++
            (". This could result in unlimited liability.").toList } :: acc
      else acc)
    []

/-- Flags of rule group 4 (compliance risk). -/
def complianceFlags (rawText : Str) : List RiskFlag :=
  COMPLIANCE_RISK_PATTERNS.foldr
    (fun c acc =>
      if !reTest c.pattern rawText && c.missingOnly then
        { clauseReference := c.risk, riskType := ("compliance").toList,
          severity := c.severity,
          explanation := ("Missing ").toList ++ c.risk ++
            (" clause. Required for regulatory compliance.").toList } :: acc
      else acc)
    []

/-- Flags of rule group 5 (contract imbalance). -/
def imbalanceFlags (rawText : Str) : List RiskFlag :=
  IMBALANCE_RISK_PATTERNS.foldr
    (fun i acc =>
      if reTest i.pattern rawText then
        { clauseReference := i.risk, riskType := ("contract_imbalance").toList,
          severity := i.severity,
          explanation := ("Contract imbalance detected: ").toList ++ i.risk ++
            (". One party may have significantly more power or protection.").toList } :: acc
      else acc)
    []

/-- Flags of rule group 7 (signature and authorization).  The pushed severity
    is the literal medium, not the severity of the table entry. -/
def signatureFlags (rawText : Str) : List RiskFlag :=
  SIGNATURE_RISK_PATTERNS.foldr
    (fun s acc =>
      if !reTest s.pattern rawText && s.missingOnly then
        { clauseReference := s.risk, riskType := ("signature_authorization").toList,
          severity := .medium,
          explanation := ("Missing ").toList ++ s.risk ++
            (". Required for proper document execution and enforceability.").toList } :: acc
      else acc)
    []

/-- Flags of rule group 8 (structural risk). -/
def structuralFlags (rawText : Str) : List RiskFlag :=
  STRUCTURAL_RISK_PATTERNS.foldr
    (fun st acc =>
      if !reTest st.pattern rawText && st.missingOnly then
        { clauseReference := st.risk, riskType := ("structural").toList,
          severity := st.severity,
          explanation := ("Missing structural element: ").toList ++ st.risk ++
            (". May affect document organization and enforceability.").toList } :: acc
      else acc)
    []

/-- Flags of rule group 9 (ambiguity risk). -/
def ambiguityFlags (rawText : Str) : List RiskFlag :=
  AMBIGUITY_RISK_PATTERNS.foldr
    (fun a acc =>
      if reTest a.pattern rawText then
        { clauseReference := a.risk, riskType := ("ambiguity").toList,
          severity := a.severity,
          explanation := ("Ambiguous language detected: ").toList ++ a.risk ++
            (". This vague wording could lead to disputes.").toList } :: acc
      else acc)
    []

/-- Flags of rule group 10 (metadata and validity risk). -/
def metadataFlags (rawText : Str) : List RiskFlag :=
  METADATA_RISK_PATTERNS.foldr
    (fun m acc =>
      if !reTest m.pattern rawText && m.missingOnly then
        { clauseReference := m.risk, riskType := ("metadata_validity").toList,
          severity := m.severity,
          explanation := ("Missing metadata: ").toList ++ m.risk ++
            (". Required for document validity and timeline clarity.").toList } :: acc
      else acc)
    []

/-- GST invoice compliance flags. -/
def gstFlags (rawText : Str) : List RiskFlag :=
  GST_INVOICE_COMPLIANCE.foldr
    (fun g acc =>
      if !reTest g.pattern rawText then
        { clauseReference := g.risk, riskType := ("compliance").toList,
          severity := g.severity,
          explanation := ("GST invoice validity: ").toList ++ g.risk ++
            (". Required for valid Input Tax Credit (ITC) under Indian GST rules.").toList } :: acc
      else acc)
    []

/-- Result of the semantic AI risk analysis, which is an external model call. -/
structure SemanticRisk where
  riskType : Str
  severity : Severity
  explanation : Str

/-- Flag pushed for the semantic analysis result: only when a result exists
    and its severity is not low; a critical severity is downgraded to high. -/
def semanticFlags (semantic : Option SemanticRisk) : List RiskFlag :=
  match semantic with
  | some s =>
      if s.severity != .low then
        [{ clauseReference := ("AI-detected risk in document").toList,
           riskType := s.riskType,
           severity := if s.severity == .critical then .high else s.severity,
           explanation := s.explanation }]
      else []
  | none => []

/-- Required-field validation flags. -/
def requiredFieldFlags (finalDocType : Str) (rawText : Str) : List RiskFlag :=
  let rawLower := jsLower rawText
  (requiredForType finalDocType).foldr
    (fun field acc =>
      let found := jsIncludes rawLower field ||
        (requiredFieldPatterns field).any (fun p => reTest p rawText)
      if !found then
        { clauseReference := ("Missing required: ").toList ++ field,
          riskType := ("validation").toList, severity := .medium,
          explanation := ("Document type \"").toList ++ finalDocType ++
            ("\" typically requires \"").toList ++ field ++
            ("\". Not found or not extracted.").toList } :: acc
      else acc)
    []

/-- All risk flags pushed by runDocumentPipeline before deduplication, for a
    given final document type, raw text and semantic analysis result.  The
    contract groups run only for contracts whose text has at least 50
    alphanumeric characters, and the semantic analysis only for texts longer
    than 100 characters. -/
def buildRiskFlags (finalDocType : Str) (rawText : Str)
    (semantic : Option SemanticRisk) : List RiskFlag :=
  let textQuality := (rawText.filter (fun c => c.isAlphanum)).length
  let isLowQualityText := textQuality < 50
  let contractFlags :=
    if finalDocType = ("contract").toList ∧ ¬isLowQualityText then
      missingClauseFlags rawText ++ weakClauseFlags rawText ++
      paymentRiskFlags rawText ++ complianceFlags rawText ++
      imbalanceFlags rawText ++ signatureFlags rawText ++
      structuralFlags rawText ++ ambiguityFlags rawText ++ metadataFlags rawText ++
      (if 100 < rawText.length then semanticFlags semantic else [])
    else []
  let invoiceFlags :=
    if finalDocType = ("invoice").toList then gstFlags rawText else []
  contractFlags ++ invoiceFlags ++ requiredFieldFlags finalDocType rawText

/-- Normalisation of a deduplication key component: lowercase, keep only
    ASCII lowercase letters and digits, first 50 characters. -/
def normalizeKey (s : Str) : Str :=
  ((jsLower s).filter (fun c => c.isLower || c.isDigit)).take 50

/-- Deduplication key of a risk flag: the risk type and the normalised
    clause reference and first 50 explanation characters, joined with
    colons. -/
def riskKey (f : RiskFlag) : Str :=
  f.riskType ++ (':' :: normalizeKey f.clauseReference) ++
  (':' :: normalizeKey (f.explanation.take 50))

/-- Generic first-occurrence filter: keeps an element when its key has not
    been seen before. -/
def keepFirstBy {α κ : Type} [DecidableEq κ] (key : α → κ) : List α → List κ → List α
  | [], _ => []
  | f :: fs, seen =>
      if key f ∈ seen then keepFirstBy key fs seen
      else f :: keepFirstBy key fs (key f :: seen)

/-- Deduplication of risk flags as performed by runDocumentPipeline. -/
def dedupRiskFlags (flags : List RiskFlag) : List RiskFlag :=
  keepFirstBy riskKey flags []

/-- Risk score computed from the deduplicated flags: high and critical count
    25 points, medium 15, low 5, capped at 100; identity documents use the
    low count only, capped at 15. -/
def riskScoreOf (finalDocType : Str) (uniq : List RiskFlag) : Nat :=
  let high := uniq.countP (fun f => f.severity == .high || f.severity == .critical)
  let med := uniq.countP (fun f => f.severity == .medium)
  let lowOrInfo := uniq.countP (fun f => f.severity == .low)
  if finalDocType = ("identity_document").toList then min 15 (lowOrInfo * 5)
  else min 100 (high * 25 + med * 15 + lowOrInfo * 5)

/-- The effective document type of the pipeline: the AI detection when it is
    a non-empty string other than unknown, else the heuristic detection. -/
def finalDocTypeOf (aiDocType : Str) (rawText : Str) : Str :=
  if aiDocType ≠ [] ∧ aiDocType ≠ ("unknown").toList then aiDocType
  else docTypeStr (detectDocumentType rawText)

/-- The deduplicated risk flags the pipeline inserts. -/
def pipelineRiskFlags (aiDocType : Str) (rawText : Str)
    (semantic : Option SemanticRisk) : List RiskFlag :=
  dedupRiskFlags (buildRiskFlags (finalDocTypeOf aiDocType rawText) rawText semantic)

/-- The risk score the pipeline stores on the document. -/
def pipelineRiskScore (aiDocType : Str) (rawText : Str)
    (semantic : Option SemanticRisk) : Nat :=
  riskScoreOf (finalDocTypeOf aiDocType rawText) (pipelineRiskFlags aiDocType rawText semantic)

/-- The invariant declared by the riskFlagSchema: severity is one of low,
    medium, high and the explanation is a non-empty string. -/
def riskFlagSchemaValid (f : RiskFlag) : Bool :=
  (f.severity == .low || f.severity == .medium || f.severity == .high) &&
  !f.explanation.isEmpty

/-- Concatenation of the key triple with colon separators, the exact string
    built by the deduplication of runDocumentPipeline. -/
def strOfTriple (t : Str × Str × Str) : Str :=
  t.1 ++ (':' :: t.2.1) ++ (':' :: t.2.2)

/-- Key triple of a risk flag: risk type, normalised clause reference and
    normalised first 50 explanation characters. -/
def keyTriple (f : RiskFlag) : Str × Str × Str :=
  (f.riskType, normalizeKey f.clauseReference, normalizeKey (f.explanation.take 50))

/-- A concrete extracted field used to exercise the non-empty AI-field
    branch of the merge. -/
def sampleAiField : ExtractedField :=
  { fieldName := ("Amount").toList, value := ("10").toList,
    pageNumber := 1, confidenceScore := 50 }

/-- A raw text that the heuristic classifies as an identity document and on
    which the regex field extraction finds nothing while the identity field
    extraction finds three fields. -/
def idSampleText : Str :=
  ("Date of Birth: 1990-01-01 and Expiry: 2030-05-05 plus Customer Number: 12345").toList

/-- A raw text that the heuristic classifies as a contract, has at least 50
    alphanumeric characters, at most 100 characters in total, and matches the
    critical unlimited-liability payment pattern. -/
def unlimitedContractText : Str :=
  ("This Agreement between Alpha and Beta: unlimited liability, whereas hereby all terms apply today.").toList

/-
  Local embedding (shared localEmbedding module) and the cosine-similarity
  fallback of vectorSearch (chroma.ts).  JavaScript floating-point numbers
  are modelled as real numbers.
-/

/-- Token list of localEmbed: lowercase, non-word non-space characters
    replaced by spaces, split on whitespace, tokens of at most one character
    dropped. -/
def localTokens (text : Str) : List Str :=
  let cleaned := (jsLower text).map (fun c => if !(isWordChar c || isJsSpace c) then ' ' else c)
  (reSplit rwsP cleaned).filter (fun t => 1 < t.length)

/-- The 31-based rolling hash of localEmbedding, reduced to 32 bits at each
    step as the unsigned shift does. -/
def hashStr (s : Str) : Nat :=
  s.foldl (fun h c => (h * 31 + c.toNat) % 4294967296) 0

/-- One loop step of localEmbed: increment the count at the hash slot of the
    token. -/
def embedStep (vec : List Nat) (t : Str) : List Nat :=
  let idx := hashStr t % 64
  vec.set idx (vec.getD idx 0 + 1)

/-- The 64 token counts accumulated by localEmbed before normalisation. -/
def embedCounts (text : Str) : List Nat :=
  (localTokens text).foldl embedStep (List.replicate 64 0)

/-- Sum of squares of the count vector. -/
def embedSumSq (text : Str) : Nat :=
  ((embedCounts text).map (fun v => v * v)).sum

/-- The normalisation divisor of localEmbed: the square root of the sum of
    squares, or 1 when that is zero. -/
noncomputable def embedNorm (text : Str) : ℝ :=
  if embedSumSq text = 0 then 1 else Real.sqrt (embedSumSq text)

/-- Embedding of localEmbed: the 64 counts divided by the norm. -/
noncomputable def localEmbed (text : Str) : List ℝ :=
  (embedCounts text).map (fun v : Nat => (v : ℝ) / embedNorm text)

/-- Embedding of embedText from gemini.ts, which always delegates to
    localEmbed. -/
noncomputable def embedText (text : Str) : List ℝ := localEmbed text

/-- Embedding of cosineSimilarity from the search service. -/
noncomputable def cosineSimilarity (a b : List ℝ) : ℝ :=
  if a.length ≠ b.length ∨ a.length = 0 then 0
  else
    let dot := ((a.zip b).map (fun p => p.1 * p.2)).sum
    let normA := (a.map (fun x => x * x)).sum
    let normB := (b.map (fun x => x * x)).sum
    let denom := Real.sqrt normA * Real.sqrt normB
    if denom = 0 then 0 else dot / denom

/-- A stored embedding row, as read back from the embeddings collection. -/
structure EmbeddingDoc where
  documentId : Str
  chunkId : Str
  sectionTitle : Option Str
  pageNumber : Nat
  text : Str
  embeddingVector : List ℝ

/-- A search result of vectorSearch. -/
structure SearchResult where
  chunkId : Str
  sectionTitle : Option Str
  pageNumber : Nat
  text : Str
  score : ℝ

/-- The fallback taken by vectorSearch when the query embedding is empty:
    the first topK chunks with the constant score one half. -/
noncomputable def emptyQueryFallback (embeddings : List EmbeddingDoc) (topK : Nat) :
    List SearchResult :=
  (embeddings.take topK).map
    (fun d => { chunkId := d.chunkId, sectionTitle := d.sectionTitle,
                pageNumber := d.pageNumber, text := d.text, score := (1 : ℝ) / 2 })

/-- The linear scan of vectorSearch: cosine similarity against every stored
    embedding, stable sort by non-increasing score, first topK, scores
    strictly above one tenth. -/
noncomputable def scanSearch (embeddings : List EmbeddingDoc) (query : Str) (topK : Nat) :
    List SearchResult :=
  let queryEmbedding := embedText query
  let withScores := embeddings.map
    (fun d => { chunkId := d.chunkId, sectionTitle := d.sectionTitle,
                pageNumber := d.pageNumber, text := d.text,
                score := cosineSimilarity queryEmbedding d.embeddingVector : SearchResult })
  let sorted := List.insertionSort (fun a b : SearchResult => b.score ≤ a.score) withScores
  (sorted.take topK).filter (fun r => decide ((1 : ℝ) / 10 < r.score))

/-- Embedding of the non-Chroma path of vectorSearch: restrict the stored
    embeddings to the requested documents, then scan, with the fallback for
    an empty query embedding. -/
noncomputable def vectorSearch (db : List EmbeddingDoc) (documentIds : List Str)
    (query : Str) (topK : Nat) : List SearchResult :=
  let embeddings := db.filter (fun d => documentIds.any (fun i => i == d.documentId))
  if (embedText query).length = 0 then emptyQueryFallback embeddings topK
  else scanSearch embeddings query topK

/-
  Document status lifecycle: creation by the upload route (POST
  /api/documents) and the status updates issued by runDocumentPipeline.
-/

/-- The five document status values of the Document schema. -/
inductive DocStatus where
  | pending : DocStatus
  | processing : DocStatus
  | completed : DocStatus
  | failed : DocStatus
  | under_review : DocStatus
deriving DecidableEq

/-- The document fields touched by the pipeline. -/
structure DocRecord where
  status : DocStatus
  riskScore : Nat
  summary : Option Str
  documentType : Str
deriving DecidableEq

/-- A document as created by the upload route: status pending, risk score 0,
    no summary, the requested document type. -/
def createdDocument (documentType : Str) : DocRecord :=
  { status := .pending, riskScore := 0, summary := none, documentType := documentType }

/-- The values runDocumentPipeline computes for its final update. -/
structure PipelineResult where
  riskScore : Nat
  summary : Str
  documentType : Str

/-- One updateOne call issued by runDocumentPipeline. -/
inductive DocUpdate where
  | setStatus (s : DocStatus) : DocUpdate
  | setCompleted (riskScore : Nat) (summary : Str) (documentType : Str) : DocUpdate

/-- Effect of one update on the document record. -/
def applyUpdate (d : DocRecord) : DocUpdate → DocRecord
  | .setStatus s => { d with status := s }
  | .setCompleted riskScore summary documentType =>
      { status := .completed, riskScore := riskScore,
        summary := some summary, documentType := documentType }

/-- Effect of a sequence of updates. -/
def applyUpdates (d : DocRecord) (us : List DocUpdate) : DocRecord :=
  us.foldl applyUpdate d

/-- The update sequence of runDocumentPipeline for a found document: first
    the processing status, then either the completed update carrying the new
    risk score, summary and document type, or the failed status when a step
    threw. -/
def pipelineUpdates (outcome : Except Unit PipelineResult) : List DocUpdate :=
  .setStatus .processing ::
    (match outcome with
     | .ok r => [.setCompleted r.riskScore r.summary r.documentType]
     | .error _ => [.setStatus .failed])

/-- The document record after a pipeline run together with the returned or
    re-thrown outcome. -/
def runPipelineDoc (d : DocRecord) (outcome : Except Unit PipelineResult) :
    DocRecord × Except Unit PipelineResult :=
  (applyUpdates d (pipelineUpdates outcome), outcome)

/-
  Helper lemmas.
-/

theorem keepFirstBy_nil {α κ : Type} [DecidableEq κ] (key : α → κ) (seen : List κ) :
    keepFirstBy key [] seen = [] := rfl

theorem keepFirstBy_cons {α κ : Type} [DecidableEq κ] (key : α → κ) (f : α) (fs : List α)
    (seen : List κ) :
    keepFirstBy key (f :: fs) seen =
      if key f ∈ seen then keepFirstBy key fs seen
      else f :: keepFirstBy key fs (key f :: seen) := rfl

theorem keepFirstBy_sublist {α κ : Type} [DecidableEq κ] (key : α → κ) :
    ∀ (l : List α) (seen : List κ), (keepFirstBy key l seen).Sublist l := by
  intro l
  induction l with
  | nil => intro seen; simp [keepFirstBy_nil]
  | cons f fs ih =>
      intro seen
      by_cases hm : key f ∈ seen
      · simp only [keepFirstBy_cons, if_pos hm]
        exact (ih seen).trans (List.Sublist.cons f (List.Sublist.refl fs))
      · simp only [keepFirstBy_cons, if_neg hm]
        exact (ih (key f :: seen)).cons₂ f

theorem keepFirstBy_not_seen {α κ : Type} [DecidableEq κ] (key : α → κ) :
    ∀ (l : List α) (seen : List κ) (x : α), x ∈ keepFirstBy key l seen → key x ∉ seen := by
  intro l
  induction l with
  | nil => intro seen x hx; simp [keepFirstBy_nil] at hx
  | cons f fs ih =>
      intro seen x hx
      by_cases hm : key f ∈ seen
      · rw [keepFirstBy_cons, if_pos hm] at hx
        exact ih seen x hx
      · rw [keepFirstBy_cons, if_neg hm] at hx
        rcases List.mem_cons.mp hx with rfl | hx2
        · exact hm
        · intro hmem
          exact ih (key f :: seen) x hx2 (List.mem_cons_of_mem _ hmem)

theorem keepFirstBy_pairwise {α κ : Type} [DecidableEq κ] (key : α → κ) :
    ∀ (l : List α) (seen : List κ),
      List.Pairwise (fun a b => key a ≠ key b) (keepFirstBy key l seen) := by
  intro l
  induction l with
  | nil => intro seen; simp [keepFirstBy_nil]
  | cons f fs ih =>
      intro seen
      by_cases hm : key f ∈ seen
      · rw [keepFirstBy_cons, if_pos hm]
        exact ih seen
      · rw [keepFirstBy_cons, if_neg hm]
        refine List.Pairwise.cons ?_ (ih (key f :: seen))
        intro b hb heq
        exact keepFirstBy_not_seen key fs (key f :: seen) b hb (heq ▸ List.mem_cons_self _ _)

theorem keepFirstBy_idem {α κ : Type} [DecidableEq κ] (key : α → κ) :
    ∀ (l : List α) (seen : List κ),
      keepFirstBy key (keepFirstBy key l seen) seen = keepFirstBy key l seen := by
  intro l
  induction l with
  | nil => intro seen; simp [keepFirstBy_nil]
  | cons f fs ih =>
      intro seen
      by_cases hm : key f ∈ seen
      · rw [keepFirstBy_cons, if_pos hm]
        exact ih seen
      · rw [keepFirstBy_cons, if_neg hm]
        conv_lhs => rw [keepFirstBy_cons, if_neg hm]
        rw [ih (key f :: seen)]

theorem keepFirstBy_key_congr {α κ κ2 : Type} [DecidableEq κ] [DecidableEq κ2]
    (key : α → κ) (g : κ → κ2)
    (hinj : ∀ a b : α, g (key a) = g (key b) → key a = key b) :
    ∀ (l : List α) (seenl : List α),
      keepFirstBy (fun a => g (key a)) l (seenl.map (fun a => g (key a))) =
      keepFirstBy key l (seenl.map key) := by
  intro l
  induction l with
  | nil => intro seenl; simp [keepFirstBy_nil]
  | cons f fs ih =>
      intro seenl
      have hmemiff : (g (key f) ∈ seenl.map (fun a => g (key a))) ↔ key f ∈ seenl.map key := by
        constructor
        · intro hm
          rcases List.mem_map.mp hm with ⟨s, hs, hgs⟩
          exact List.mem_map.mpr ⟨s, hs, hinj s f hgs⟩
        · intro hm
          rcases List.mem_map.mp hm with ⟨s, hs, hks⟩
          exact List.mem_map.mpr ⟨s, hs, by rw [hks]⟩
      by_cases hm : key f ∈ seenl.map key
      · rw [keepFirstBy_cons, if_pos (hmemiff.mpr hm), keepFirstBy_cons, if_pos hm]
        exact ih seenl
      · rw [keepFirstBy_cons, if_neg (fun hx => hm (hmemiff.mp hx)), keepFirstBy_cons, if_neg hm]
        have := ih (f :: seenl)
        simp only [List.map_cons] at this
        rw [this]

theorem takeWhile_append_block {α : Type} (p : α → Bool) :
    ∀ (a : List α) (b : α) (rest : List α), (∀ c ∈ a, p c = true) → p b = false →
      (a ++ b :: rest).takeWhile p = a ∧ (a ++ b :: rest).dropWhile p = b :: rest := by
  intro a
  induction a with
  | nil =>
      intro b rest _ hb
      constructor
      · simp [List.takeWhile, hb]
      · simp [List.dropWhile, hb]
  | cons c a ih =>
      intro b rest ha hb
      have hc : p c = true := ha c (List.mem_cons_self _ _)
      have ih2 := ih b rest (fun x hx => ha x (List.mem_cons_of_mem _ hx)) hb
      constructor
      · simp [List.takeWhile, hc, ih2.1]
      · simp [List.dropWhile, hc, ih2.2]

theorem colonFree_reverse {s : Str} (h : ∀ c ∈ s, (c == ':') = false) :
    ∀ c ∈ s.reverse, (!(c == ':')) = true := by
  intro c hc
  rw [List.mem_reverse] at hc
  simp [h c hc]

theorem strOfTriple_rev (t : Str × Str × Str) :
    (strOfTriple t).reverse = t.2.2.reverse ++ ':' :: (t.2.1.reverse ++ ':' :: t.1.reverse) := by
  unfold strOfTriple
  simp [List.reverse_append, List.append_assoc]

theorem strOfTriple_inj (t1 t2 : Str × Str × Str)
    (h1 : ∀ c ∈ t1.2.1, (c == ':') = false) (h2 : ∀ c ∈ t1.2.2, (c == ':') = false)
    (h3 : ∀ c ∈ t2.2.1, (c == ':') = false) (h4 : ∀ c ∈ t2.2.2, (c == ':') = false)
    (heq : strOfTriple t1 = strOfTriple t2) : t1 = t2 := by
  have hrev : (strOfTriple t1).reverse = (strOfTriple t2).reverse := by rw [heq]
  rw [strOfTriple_rev, strOfTriple_rev] at hrev
  have hcolon : ((':' : Char) == ':') = true := by decide
  have hne : (!(( ':' : Char) == ':')) = false := by decide
  have b1 := takeWhile_append_block (fun c => !(c == ':')) t1.2.2.reverse ':'
    (t1.2.1.reverse ++ ':' :: t1.1.reverse) (colonFree_reverse h2) hne
  have b2 := takeWhile_append_block (fun c => !(c == ':')) t2.2.2.reverse ':'
    (t2.2.1.reverse ++ ':' :: t2.1.reverse) (colonFree_reverse h4) hne
  have e22 : t1.2.2.reverse = t2.2.2.reverse := by
    have := congrArg (List.takeWhile (fun c => !(c == ':'))) hrev
    rw [b1.1, b2.1] at this
    exact this
  have erest : t1.2.1.reverse ++ ':' :: t1.1.reverse = t2.2.1.reverse ++ ':' :: t2.1.reverse := by
    have := congrArg (List.dropWhile (fun c => !(c == ':'))) hrev
    rw [b1.2, b2.2] at this
    exact List.cons_injective this
  have b3 := takeWhile_append_block (fun c => !(c == ':')) t1.2.1.reverse ':'
    t1.1.reverse (colonFree_reverse h1) hne
  have b4 := takeWhile_append_block (fun c => !(c == ':')) t2.2.1.reverse ':'
    t2.1.reverse (colonFree_reverse h3) hne
  have e21 : t1.2.1.reverse = t2.2.1.reverse := by
    have := congrArg (List.takeWhile (fun c => !(c == ':'))) erest
    rw [b3.1, b4.1] at this
    exact this
  have e1 : t1.1.reverse = t2.1.reverse := by
    have := congrArg (List.dropWhile (fun c => !(c == ':'))) erest
    rw [b3.2, b4.2] at this
    exact List.cons_injective this
  have g22 : t1.2.2 = t2.2.2 := List.reverse_injective e22
  have g21 : t1.2.1 = t2.2.1 := List.reverse_injective e21
  have g1 : t1.1 = t2.1 := List.reverse_injective e1
  obtain ⟨a1, b1x, c1⟩ := t1
  obtain ⟨a2, b2x, c2⟩ := t2
  simp only at g1 g21 g22
  rw [g1, g21, g22]

theorem normalizeKey_colonFree (s : Str) : ∀ c ∈ normalizeKey s, (c == ':') = false := by
  intro c hc
  unfold normalizeKey at hc
  have hmem := List.mem_of_mem_take hc
  have hp := List.of_mem_filter hmem
  have : c ≠ ':' := by
    intro h
    subst h
    simp at hp
  simp [this]

theorem riskKey_eq_strOfTriple (f : RiskFlag) : riskKey f = strOfTriple (keyTriple f) := rfl

theorem embedStep_length (vec : List Nat) (t : Str) :
    (embedStep vec t).length = vec.length := List.length_set vec _ _

theorem foldl_embedStep_length (tokens : List Str) :
    ∀ vec : List Nat, (tokens.foldl embedStep vec).length = vec.length := by
  induction tokens with
  | nil => intro vec; rfl
  | cons t ts ih =>
      intro vec
      show (ts.foldl embedStep (embedStep vec t)).length = vec.length
      rw [ih (embedStep vec t), embedStep_length]

theorem embedCounts_length (text : Str) : (embedCounts text).length = 64 := by
  unfold embedCounts
  rw [foldl_embedStep_length, List.length_replicate]

theorem embedStep_sum (vec : List Nat) (t : Str) (h : vec.length = 64) :
    (embedStep vec t).sum = vec.sum + 1 := by
  unfold embedStep
  have hidx : hashStr t % 64 < vec.length := by
    rw [h]; exact Nat.mod_lt _ (by norm_num)
  rw [List.sum_set]
  rw [if_pos hidx]
  have hsplit : vec.sum = (vec.take (hashStr t % 64)).sum + (vec.drop (hashStr t % 64)).sum := by
    rw [← List.sum_append, List.take_append_drop]
  have hdrop : vec.drop (hashStr t % 64) =
      vec.getD (hashStr t % 64) 0 :: vec.drop (hashStr t % 64 + 1) := by
    rw [List.getD_eq_getElem vec 0 hidx]
    exact List.drop_eq_getElem_cons hidx
  rw [hdrop] at hsplit
  simp only [List.sum_cons] at hsplit
  omega

theorem foldl_embedStep_sum (tokens : List Str) :
    ∀ vec : List Nat, vec.length = 64 →
      (tokens.foldl embedStep vec).sum = vec.sum + tokens.length := by
  induction tokens with
  | nil => intro vec _; rfl
  | cons t ts ih =>
      intro vec h
      show (ts.foldl embedStep (embedStep vec t)).sum = vec.sum + (ts.length + 1)
      rw [ih (embedStep vec t) (by rw [embedStep_length, h]), embedStep_sum vec t h]
      omega

theorem embedCounts_sum (text : Str) : (embedCounts text).sum = (localTokens text).length := by
  unfold embedCounts
  rw [foldl_embedStep_sum _ _ (List.length_replicate 64 0)]
  simp

theorem embedSumSq_zero_iff (text : Str) :
    embedSumSq text = 0 ↔ localTokens text = [] := by
  constructor
  · intro h
    unfold embedSumSq at h
    rw [List.sum_eq_zero_iff] at h
    have hsum : (embedCounts text).sum = 0 := by
      rw [List.sum_eq_zero_iff]
      intro v hv
      have := h (v * v) (List.mem_map.mpr ⟨v, hv, rfl⟩)
      exact Nat.eq_zero_of_mul_eq_zero this |>.elim id id
    rw [embedCounts_sum] at hsum
    exact List.eq_nil_of_length_eq_zero hsum
  · intro h
    unfold embedSumSq embedCounts
    rw [h]
    simp [List.sum_eq_zero_iff]

theorem embedNorm_pos (text : Str) : 0 < embedNorm text := by
  unfold embedNorm
  split
  · norm_num
  · rename_i h
    refine Real.sqrt_pos.mpr ?_
    exact_mod_cast Nat.pos_of_ne_zero h

end DocIntel
namespace DocIntel

theorem list_map_div_sum (l : List ℝ) (c : ℝ) : (l.map (fun x => x / c)).sum = l.sum / c := by
  induction l with
  | nil => simp
  | cons x xs ih => simp [add_div, ih]

theorem embedCounts_cast_sumsq (text : Str) :
    ((embedCounts text).map (fun v : Nat => (v : ℝ) * v)).sum = (embedSumSq text : ℝ) := by
  unfold embedSumSq
  rw [Nat.cast_list_sum, List.map_map]
  have hfun : (Nat.cast ∘ fun v : Nat => v * v) = (fun v : Nat => (v : ℝ) * v) := by
    funext v
    simp only [Function.comp_apply]
    push_cast
    rfl
  rw [hfun]

theorem localEmbed_sumsq (text : Str) :
    ((localEmbed text).map (fun x => x * x)).sum =
      (embedSumSq text : ℝ) / (embedNorm text * embedNorm text) := by
  unfold localEmbed
  rw [List.map_map]
  have h1 : ((fun x => x * x) ∘ (fun v : Nat => (v : ℝ) / embedNorm text)) =
      (fun x => x / (embedNorm text * embedNorm text)) ∘ (fun v : Nat => (v : ℝ) * v) := by
    funext v
    simp only [Function.comp_apply]
    rw [div_mul_div_comm]
  rw [h1, ← List.map_map, list_map_div_sum, embedCounts_cast_sumsq]

theorem localEmbed_sumsq_le_one (text : Str) :
    ((localEmbed text).map (fun x => x * x)).sum ≤ 1 := by
  rw [localEmbed_sumsq]
  by_cases h : embedSumSq text = 0
  · rw [h]
    norm_num
  · unfold embedNorm
    rw [if_neg h]
    have hpos : (0 : ℝ) < (embedSumSq text : ℝ) := by
      exact_mod_cast Nat.pos_of_ne_zero h
    rw [Real.mul_self_sqrt (le_of_lt hpos), div_self (ne_of_gt hpos)]

theorem localEmbed_sumsq_eq_one (text : Str) (h : localTokens text ≠ []) :
    ((localEmbed text).map (fun x => x * x)).sum = 1 := by
  rw [localEmbed_sumsq]
  have h0 : embedSumSq text ≠ 0 := fun hz => h ((embedSumSq_zero_iff text).mp hz)
  unfold embedNorm
  rw [if_neg h0]
  have hpos : (0 : ℝ) < (embedSumSq text : ℝ) := by
    exact_mod_cast Nat.pos_of_ne_zero h0
  rw [Real.mul_self_sqrt (le_of_lt hpos), div_self (ne_of_gt hpos)]

theorem embedText_length (q : Str) : (embedText q).length = 64 := by
  unfold embedText localEmbed
  rw [List.length_map, embedCounts_length]

theorem vectorSearch_eq_scan (db : List EmbeddingDoc) (ids : List Str) (q : Str) (k : Nat) :
    vectorSearch db ids q k =
      scanSearch (db.filter (fun d => ids.any (fun i => i == d.documentId))) q k := by
  unfold vectorSearch
  rw [if_neg]
  rw [embedText_length]
  norm_num

theorem dropWhile_head_false {α : Type} (p : α → Bool) :
    ∀ (l : List α) (h : α) (t : List α), l.dropWhile p = h :: t → p h = false := by
  intro l
  induction l with
  | nil => intro h t hl; simp [List.dropWhile] at hl
  | cons a l ih =>
      intro h t hl
      by_cases hp : p a
      · rw [List.dropWhile_cons_of_pos hp] at hl
        exact ih h t hl
      · rw [List.dropWhile_cons_of_neg hp] at hl
        cases hl
        exact Bool.of_not_eq_true hp

theorem dropWhile_eq_self_of_head {α : Type} (p : α → Bool) (l : List α) (h : α)
    (hh : l.head? = some h) (hp : p h = false) : l.dropWhile p = l := by
  cases l with
  | nil => rfl
  | cons a t =>
      have : a = h := by simpa using hh
      subst this
      exact List.dropWhile_cons_of_neg (by simp [hp])

theorem head?_of_prefix {α : Type} {l₁ l₂ : List α} (hpre : l₁ <+: l₂) (h : α)
    (hh : l₁.head? = some h) : l₂.head? = some h := by
  rcases hpre with ⟨r, hr⟩
  subst hr
  cases l₁ with
  | nil => simp at hh
  | cons a t => simpa using hh

theorem jsTrim_idem (s : Str) : jsTrim (jsTrim s) = jsTrim s := by
  cases hu : s.dropWhile isJsSpace with
  | nil =>
      have hts : jsTrim s = [] := by unfold jsTrim; rw [hu]; rfl
      rw [hts]
      rfl
  | cons a u2 =>
      have hpa : isJsSpace a = false := dropWhile_head_false isJsSpace s a u2 hu
      cases hw : ((a :: u2).reverse).dropWhile isJsSpace with
      | nil =>
          have hts : jsTrim s = [] := by unfold jsTrim; rw [hu, hw]; rfl
          rw [hts]
          rfl
      | cons b w2 =>
          have hpb : isJsSpace b = false :=
            dropWhile_head_false isJsSpace ((a :: u2).reverse) b w2 hw
          have hsuffix : (b :: w2) <:+ (a :: u2).reverse := hw ▸ List.dropWhile_suffix _
          have hprefix : (b :: w2).reverse <+: (a :: u2) := by
            apply List.reverse_suffix.mp
            rw [List.reverse_reverse]
            exact hsuffix
          have hhead : ((b :: w2).reverse).head? = some a := by
            cases hx : (b :: w2).reverse with
            | nil => exact absurd (congrArg List.length hx) (by simp)
            | cons x xs =>
                have hh2 := head?_of_prefix hprefix x (by rw [hx]; rfl)
                simp only [List.head?_cons] at hh2
                rw [List.head?_cons]
                exact hh2.symm
          have hts : jsTrim s = (b :: w2).reverse := by unfold jsTrim; rw [hu, hw]
          rw [hts]
          unfold jsTrim
          rw [dropWhile_eq_self_of_head isJsSpace ((b :: w2).reverse) a hhead hpa]
          rw [List.reverse_reverse]
          rw [List.dropWhile_cons_of_neg (by simp [hpb])]

theorem jsTrim_length_le (s : Str) : (jsTrim s).length ≤ s.length := by
  unfold jsTrim
  calc ((s.dropWhile isJsSpace).reverse.dropWhile isJsSpace).reverse.length
      = ((s.dropWhile isJsSpace).reverse.dropWhile isJsSpace).length := List.length_reverse _
    _ ≤ (s.dropWhile isJsSpace).reverse.length :=
        List.IsSuffix.length_le (List.dropWhile_suffix _)
    _ = (s.dropWhile isJsSpace).length := List.length_reverse _
    _ ≤ s.length := List.IsSuffix.length_le (List.dropWhile_suffix _)

theorem jsTrim_eq_nil_iff (s : Str) : jsTrim s = [] ↔ ∀ c ∈ s, isJsSpace c = true := by
  constructor
  · intro h c hc
    unfold jsTrim at h
    have hw : (s.dropWhile isJsSpace).reverse.dropWhile isJsSpace = [] := by
      have := congrArg List.reverse h
      simpa using this
    rw [List.dropWhile_eq_nil_iff] at hw
    have hall : ∀ x ∈ s.dropWhile isJsSpace, isJsSpace x = true := by
      intro x hx
      exact hw x (List.mem_reverse.mpr hx)
    have hsplit := List.takeWhile_append_dropWhile isJsSpace s
    rcases List.mem_append.mp (by rw [hsplit]; exact hc) with h1 | h2
    · exact List.mem_takeWhile_imp h1
    · exact hall c h2
  · intro h
    unfold jsTrim
    have : s.dropWhile isJsSpace = [] := List.dropWhile_eq_nil_iff.mpr h
    rw [this]
    rfl

end DocIntel
namespace DocIntel

theorem jsSlice_length (text : Str) (a b : Nat) :
    (jsSlice text a b).length = min b text.length - a := by
  unfold jsSlice
  rw [List.length_drop, List.length_take]

theorem jsSlice_take (text : Str) (a b k : Nat) :
    (jsSlice text a b).take k = jsSlice text a (min (a + k) b) := by
  unfold jsSlice
  rw [List.take_drop, List.take_take]

theorem chunkEmit_as_slice (text : Str) (start : Nat) :
    ∃ b, chunkEmit text start = jsSlice text start b ∧ b - start ≤ 800 := by
  unfold chunkEmit chunkSliceEnd
  by_cases he : min (start + 800) text.length < text.length
  · simp only [he, if_true]
    cases hls : lastIndexOfSpace (jsSlice text start (min (start + 800) text.length)) with
    | none =>
        exact ⟨min (start + 800) text.length, rfl, by omega⟩
    | some ls =>
        show ∃ b, (if 400 < ls
            then List.take (ls + 1) (jsSlice text start (min (start + 800) text.length))
            else jsSlice text start (min (start + 800) text.length)) =
            jsSlice text start b ∧ b - start ≤ 800
        by_cases h400 : 400 < ls
        · rw [if_pos h400]
          refine ⟨min (start + (ls + 1)) (min (start + 800) text.length),
            jsSlice_take text start (min (start + 800) text.length) (ls + 1), by omega⟩
        · rw [if_neg h400]
          exact ⟨min (start + 800) text.length, rfl, by omega⟩
  · simp only [he, if_false]
    exact ⟨min (start + 800) text.length, rfl, by omega⟩

theorem chunkEmit_length_le (text : Str) (start : Nat) :
    (chunkEmit text start).length ≤ 800 := by
  rcases chunkEmit_as_slice text start with ⟨b, hb, hle⟩
  rw [hb, jsSlice_length]
  omega

theorem chunkLoop_mem (text : Str) :
    ∀ (n start : Nat), text.length - start ≤ n → ∀ c ∈ chunkLoop text start,
      ∃ s, jsTrim (chunkEmit text s) = c ∧ c ≠ [] := by
  intro n
  induction n with
  | zero =>
      intro start hle c hc
      rw [chunkLoop] at hc
      rw [dif_neg (by omega)] at hc
      simp at hc
  | succ n ih =>
      intro start hle c hc
      rw [chunkLoop] at hc
      by_cases h : start < text.length
      · rw [dif_pos h] at hc
        have hnext := chunkNextStart_gt text start h
        by_cases hemp : (jsTrim (chunkEmit text start)).isEmpty
        · rw [if_pos hemp] at hc
          exact ih (chunkNextStart text start) (by omega) c hc
        · rw [if_neg hemp] at hc
          rcases List.mem_cons.mp hc with rfl | hc2
          · exact ⟨start, rfl, by
              intro hnil
              rw [hnil] at hemp
              exact hemp rfl⟩
          · exact ih (chunkNextStart text start) (by omega) c hc2
      · rw [dif_neg h] at hc
        simp at hc

end DocIntel
namespace DocIntel

theorem chunkNext_plus_100 (text : Str) (start : Nat) (h : start < text.length)
    (h2 : chunkNextStart text start < text.length) :
    chunkNextStart text start + 100 = start + (chunkEmit text start).length := by
  by_cases hbig : start + 800 < text.length
  · have hmin : min (start + 800) text.length = start + 800 := by omega
    have hslen : (jsSlice text start (start + 800)).length = 800 := by
      rw [jsSlice_length]; omega
    unfold chunkNextStart chunkEmit chunkSliceEnd
    dsimp only
    rw [hmin, if_pos hbig, if_pos hbig]
    cases hls : lastIndexOfSpace (jsSlice text start (start + 800)) with
    | none =>
        show start + 800 - 100 + 100 = start + (jsSlice text start (start + 800)).length
        rw [hslen]
        omega
    | some ls =>
        have hlt : ls < 800 := by
          have := lastIndexOfSpace_lt_length _ ls hls
          omega
        show (if 400 < ls then start + ls + 1 - 100 else start + 800 - 100) + 100 =
          start + (if 400 < ls
            then List.take (ls + 1) (jsSlice text start (start + 800))
            else jsSlice text start (start + 800)).length
        by_cases h400 : 400 < ls
        · rw [if_pos h400, if_pos h400, List.length_take, hslen]
          omega
        · rw [if_neg h400, if_neg h400, hslen]
          omega
  · exfalso
    have hmin : min (start + 800) text.length = text.length := by omega
    unfold chunkNextStart chunkSliceEnd at h2
    rw [hmin, if_neg (lt_irrefl _)] at h2
    exact lt_irrefl _ h2

theorem chunkNextStart_le_emitEnd (text : Str) (start : Nat) (h : start < text.length) :
    chunkNextStart text start ≤ start + (chunkEmit text start).length := by
  by_cases hbig : start + 800 < text.length
  · have hmin : min (start + 800) text.length = start + 800 := by omega
    have hslen : (jsSlice text start (start + 800)).length = 800 := by
      rw [jsSlice_length]; omega
    unfold chunkNextStart chunkEmit chunkSliceEnd
    dsimp only
    rw [hmin, if_pos hbig, if_pos hbig]
    cases hls : lastIndexOfSpace (jsSlice text start (start + 800)) with
    | none =>
        show start + 800 - 100 ≤ start + (jsSlice text start (start + 800)).length
        rw [hslen]
        omega
    | some ls =>
        have hlt : ls < 800 := by
          have := lastIndexOfSpace_lt_length _ ls hls
          omega
        show (if 400 < ls then start + ls + 1 - 100 else start + 800 - 100) ≤
          start + (if 400 < ls
            then List.take (ls + 1) (jsSlice text start (start + 800))
            else jsSlice text start (start + 800)).length
        by_cases h400 : 400 < ls
        · rw [if_pos h400, if_pos h400, List.length_take, hslen]
          omega
        · rw [if_neg h400, if_neg h400, hslen]
          omega
  · have hmin : min (start + 800) text.length = text.length := by omega
    have hslen : (jsSlice text start (min (start + 800) text.length)).length =
        text.length - start := by
      rw [jsSlice_length]
      omega
    unfold chunkNextStart chunkEmit chunkSliceEnd
    dsimp only
    rw [hmin, if_neg (lt_irrefl _), if_neg (lt_irrefl _)]
    rw [hmin] at hslen
    rw [hslen]
    omega

theorem chunkSpans_chain (text : Str) :
    ∀ (n start : Nat), text.length - start ≤ n →
      List.Chain' (fun s1 s2 : Nat × Nat => s2.1 + 100 = s1.2) (chunkSpans text start) := by
  intro n
  induction n with
  | zero =>
      intro start hle
      rw [chunkSpans, dif_neg (by omega)]
      simp
  | succ n ih =>
      intro start hle
      rw [chunkSpans]
      by_cases h : start < text.length
      · rw [dif_pos h]
        have hnext := chunkNextStart_gt text start h
        rw [List.chain'_cons']
        constructor
        · intro y hy
          rw [chunkSpans] at hy
          by_cases hn : chunkNextStart text start < text.length
          · rw [dif_pos hn] at hy
            simp only [List.head?_cons, Option.mem_def, Option.some.injEq] at hy
            rw [← hy]
            exact chunkNext_plus_100 text start h hn
          · rw [dif_neg hn] at hy
            simp at hy
        · exact ih (chunkNextStart text start) (by omega)
      · rw [dif_neg h]
        simp

theorem chunkLoop_nil_ws (text : Str) :
    ∀ (n start : Nat), text.length - start ≤ n → chunkLoop text start = [] →
      ∀ i, start ≤ i → i < text.length → ∀ ch, text[i]? = some ch → isJsSpace ch = true := by
  intro n
  induction n with
  | zero =>
      intro start hle _ i hi hilen
      omega
  | succ n ih =>
      intro start hle hnil i hi hilen ch hch
      rw [chunkLoop] at hnil
      by_cases h : start < text.length
      · rw [dif_pos h] at hnil
        have hnext := chunkNextStart_gt text start h
        by_cases hemp : (jsTrim (chunkEmit text start)).isEmpty
        · rw [if_pos hemp] at hnil
          have hws : ∀ c ∈ chunkEmit text start, isJsSpace c = true :=
            (jsTrim_eq_nil_iff _).mp (List.isEmpty_iff.mp hemp)
          by_cases hcase : i < start + (chunkEmit text start).length
          · rcases chunkEmit_as_slice text start with ⟨b, hb, _⟩
            have hlen : i - start < min b text.length - start := by
              rw [hb, jsSlice_length] at hcase
              omega
            have hib : i < b := by omega
            have hget : (jsSlice text start b)[i - start]? = some ch := by
              unfold jsSlice
              rw [List.getElem?_drop]
              have hidx : start + (i - start) = i := by omega
              rw [hidx, List.getElem?_take, if_pos hib]
              exact hch
            refine hws ch ?_
            rw [hb]
            exact List.getElem?_mem hget
          · have hle2 := chunkNextStart_le_emitEnd text start h
            exact ih (chunkNextStart text start) (by omega) hnil i (by omega) hilen ch hch
        · rw [if_neg hemp] at hnil
          simp at hnil
      · omega

end DocIntel
namespace DocIntel

/-
  Claim theorems.
-/

/-- C1: for every run of the pipeline the stored risk score equals
    min(100, 25 H + 15 M + 5 L) over the deduplicated flags, where H counts
    severity high or critical, M medium and L low, except that an
    identity document scores min(15, 5 L); consequently the score is always
    between 0 and 100 (it is a natural number, so 0 is a lower bound). -/
theorem riskScore_spec (a r : Str) (s : Option SemanticRisk) :
    (pipelineRiskScore a r s =
      if finalDocTypeOf a r = ("identity_document").toList then
        min 15 (5 * (pipelineRiskFlags a r s).countP (fun f => f.severity == .low))
      else
        min 100 (25 * (pipelineRiskFlags a r s).countP
                    (fun f => f.severity == .high || f.severity == .critical) +
                 15 * (pipelineRiskFlags a r s).countP (fun f => f.severity == .medium) +
                 5 * (pipelineRiskFlags a r s).countP (fun f => f.severity == .low))) ∧
    pipelineRiskScore a r s ≤ 100 := by
  unfold pipelineRiskScore riskScoreOf
  dsimp only
  constructor
  · split
    · omega
    · omega
  · split
    · omega
    · omega

/-- C2: deduplication keeps exactly the first flag for each key, where the
    key is the triple of risk type, normalised clause reference and
    normalised first 50 explanation characters; no two output flags share a
    key triple, the relative order is preserved (the output is a
    subsequence), and the filter is idempotent. -/
theorem dedupRiskFlags_spec (flags : List RiskFlag) :
    dedupRiskFlags flags = keepFirstBy keyTriple flags [] ∧
    List.Pairwise (fun f g => keyTriple f ≠ keyTriple g) (dedupRiskFlags flags) ∧
    (dedupRiskFlags flags).Sublist flags ∧
    dedupRiskFlags (dedupRiskFlags flags) = dedupRiskFlags flags := by
  have hinj : ∀ a b : RiskFlag, strOfTriple (keyTriple a) = strOfTriple (keyTriple b) →
      keyTriple a = keyTriple b := by
    intro a b
    exact strOfTriple_inj (keyTriple a) (keyTriple b)
      (normalizeKey_colonFree _) (normalizeKey_colonFree _)
      (normalizeKey_colonFree _) (normalizeKey_colonFree _)
  have hmain : dedupRiskFlags flags = keepFirstBy keyTriple flags [] := by
    have := keepFirstBy_key_congr keyTriple strOfTriple hinj flags []
    simpa [dedupRiskFlags] using this
  refine ⟨hmain, ?_, ?_, ?_⟩
  · rw [hmain]
    exact keepFirstBy_pairwise keyTriple flags []
  · exact keepFirstBy_sublist riskKey flags []
  · exact keepFirstBy_idem riskKey flags []

/-- C3: detectDocumentType agrees everywhere with the decision procedure
    described by the specification: unknown below 20 characters; contract on
    3 contract indicators or the word agreement plus 2 indicators; then nda,
    sla, purchase_order, invoice (3 indicators), identity_document (2
    indicators) in order; then contract on one indicator, else unknown. -/
theorem detectDocumentType_eq_spec : ∀ s, detectDocumentType s = detectDocumentTypeSpec s := by
  intro s
  unfold detectDocumentType detectDocumentTypeSpec
  simp only [List.countP_eq_length_filter, ge_iff_le, Bool.and_eq_true, decide_eq_true_eq]
  by_cases h20 : s.length < 20
  · simp [h20]
  · simp only [h20, if_false]
    by_cases h3 : 3 ≤ (contractIndicators.filter (fun p => reTest p (jsLower s))).length
    · simp [h3]
    · by_cases h2 : jsIncludes (jsLower s) (("agreement").toList) = true ∧
        2 ≤ (contractIndicators.filter (fun p => reTest p (jsLower s))).length
      · simp [h2, h3]
      · simp only [h2, h3, false_or, or_false, if_false]

/-- C4 (amended): for a PDF, the stored fields are the AI fields merged with
    the heuristic regex fields (all of them when the AI found none, otherwise
    only those whose name is not already present case-insensitively), except
    that when the heuristic document type is identity_document the identity
    fields not yet present are appended; the stored sections are the AI
    sections when non-empty and the heuristic sections otherwise, and
    likewise the stored tables. -/
theorem pdfExtractionFallback_amended : ∀ (aiFields : List ExtractedField) (aiSections : List DocSection)
    (aiTables : List DocTable) (rawText : Str) (pageTexts : List Str),
    (aiFields = [] → storedPdfFields aiFields rawText =
      (if detectDocumentType rawText = .identity_document then
        idAugment (extractFieldsFromText rawText) (extractIdFieldsFromText rawText)
      else extractFieldsFromText rawText)) ∧
    (aiFields ≠ [] → storedPdfFields aiFields rawText =
      (if detectDocumentType rawText = .identity_document then
        idAugment (aiFields ++ (extractFieldsFromText rawText).filter
          (fun h => !(aiFields.any (fun a => jsLower a.fieldName == jsLower h.fieldName))))
          (extractIdFieldsFromText rawText)
      else aiFields ++ (extractFieldsFromText rawText).filter
          (fun h => !(aiFields.any (fun a => jsLower a.fieldName == jsLower h.fieldName))))) ∧
    storedPdfSections aiSections rawText =
      (if aiSections = [] then extractSectionsFromText rawText else aiSections) ∧
    storedPdfTables aiTables pageTexts =
      (if aiTables = [] then heuristicTablesOf pageTexts else aiTables) := by
  intro aiFields aiSections aiTables rawText pageTexts
  refine ⟨?_, ?_, ?_, ?_⟩
  · intro h
    subst h
    unfold storedPdfFields mergePdfFields
    rfl
  · intro h
    unfold storedPdfFields mergePdfFields
    rw [if_pos (List.length_pos.mpr h)]
  · unfold storedPdfSections
    by_cases h : aiSections = []
    · subst h
      rw [if_pos rfl]
      simp
    · rw [if_neg h, if_pos (List.length_pos.mpr h)]
  · unfold storedPdfTables
    by_cases h : aiTables = []
    · subst h
      rw [if_pos rfl]
      simp
    · rw [if_neg h, if_pos (List.length_pos.mpr h)]

/-- C4 (counterexample): on a text classified as an identity document the
    pipeline stores identity fields even though the AI extraction found no
    field and the regex heuristics found none either, so the stored fields
    are not exactly the extractFieldsFromText result. -/
theorem pdfExtractionFallback_counterexample :
    extractFieldsFromText idSampleText = [] ∧
    storedPdfFields [] idSampleText ≠ [] := by
  constructor
  · decide
  · decide

/-- C5: the non-Chroma vectorSearch returns at most topK results, ordered by
    non-increasing cosine-similarity score, and every returned score is
    strictly greater than one tenth. -/
theorem vectorSearch_spec : ∀ (db : List EmbeddingDoc) (ids : List Str) (query : Str) (topK : Nat),
    (vectorSearch db ids query topK).length ≤ topK ∧
    List.Chain' (fun a b : SearchResult => b.score ≤ a.score) (vectorSearch db ids query topK) ∧
    (∀ r ∈ vectorSearch db ids query topK, (1 : ℝ) / 10 < r.score) := by
  intro db ids query topK
  rw [vectorSearch_eq_scan]
  unfold scanSearch
  dsimp only
  haveI ht : IsTotal SearchResult (fun a b => b.score ≤ a.score) := ⟨fun a b => le_total _ _⟩
  haveI htr : IsTrans SearchResult (fun a b => b.score ≤ a.score) :=
    ⟨fun _ _ _ h1 h2 => le_trans h2 h1⟩
  refine ⟨?_, ?_, ?_⟩
  · exact le_trans (List.length_filter_le _ _) (by rw [List.length_take]; exact min_le_left _ _)
  · have hsorted := List.sorted_insertionSort (fun a b : SearchResult => b.score ≤ a.score)
      ((db.filter (fun d => ids.any (fun i => i == d.documentId))).map
        (fun d => { chunkId := d.chunkId, sectionTitle := d.sectionTitle,
                    pageNumber := d.pageNumber, text := d.text,
                    score := cosineSimilarity (embedText query) d.embeddingVector : SearchResult }))
    have hsub := (List.filter_sublist (l :=
        (List.insertionSort (fun a b : SearchResult => b.score ≤ a.score)
          ((db.filter (fun d => ids.any (fun i => i == d.documentId))).map
            (fun d => { chunkId := d.chunkId, sectionTitle := d.sectionTitle,
                        pageNumber := d.pageNumber, text := d.text,
                        score := cosineSimilarity (embedText query) d.embeddingVector : SearchResult }))).take topK)
      (p := fun r => decide ((1 : ℝ) / 10 < r.score))).trans
      (List.take_sublist topK _)
    exact (List.Pairwise.sublist hsub hsorted).chain'
  · intro r hr
    have hmem := (List.mem_filter.mp hr).2
    exact of_decide_eq_true hmem

/-- C6 (amended): every chunk produced by chunkText is the non-empty trimmed
    content of a slice of at most 800 characters of the text, consecutive raw
    slices taken by the loop overlap by exactly 100 characters, and whenever
    the text contains a non-whitespace character at least one chunk is
    returned. -/
theorem chunkText_amended : ∀ text : Str,
    (∀ c ∈ chunkText text, c ≠ [] ∧ jsTrim c = c ∧ c.length ≤ 800 ∧
       ∃ a b, b - a ≤ 800 ∧ c = jsTrim (jsSlice text a b)) ∧
    List.Chain' (fun s1 s2 : Nat × Nat => s2.1 + 100 = s1.2) (chunkSpans text 0) ∧
    ((∃ ch ∈ text, isJsSpace ch = false) → chunkText text ≠ []) := by
  intro text
  refine ⟨?_, chunkSpans_chain text text.length 0 (by omega), ?_⟩
  · intro c hc
    unfold chunkText at hc
    dsimp only at hc
    by_cases hloopnil : (chunkLoop text 0).isEmpty
    · rw [if_pos hloopnil] at hc
      by_cases hfb : (jsTrim (text.take 800)).isEmpty
      · rw [if_pos hfb] at hc
        simp at hc
      · rw [if_neg hfb] at hc
        have hc2 := List.mem_singleton.mp hc
        subst hc2
        have hslice : text.take 800 = jsSlice text 0 800 := by
          unfold jsSlice
          rw [List.drop_zero]
        refine ⟨?_, jsTrim_idem _, ?_, 0, 800, by omega, by rw [hslice]⟩
        · intro h0
          rw [h0] at hfb
          exact hfb rfl
        · calc (jsTrim (text.take 800)).length
              ≤ (text.take 800).length := jsTrim_length_le _
            _ ≤ 800 := by rw [List.length_take]; omega
    · rw [if_neg hloopnil] at hc
      rcases chunkLoop_mem text text.length 0 (by omega) c hc with ⟨s, hs, hne⟩
      rcases chunkEmit_as_slice text s with ⟨b, hb, hble⟩
      refine ⟨hne, by rw [← hs]; exact jsTrim_idem _, ?_, s, b, hble, by rw [← hs, hb]⟩
      rw [← hs]
      calc (jsTrim (chunkEmit text s)).length
          ≤ (chunkEmit text s).length := jsTrim_length_le _
        _ ≤ 800 := chunkEmit_length_le text s
  · rintro ⟨ch, hmem, hws⟩ hnil
    unfold chunkText at hnil
    dsimp only at hnil
    by_cases hloopnil : (chunkLoop text 0).isEmpty
    · rw [if_pos hloopnil] at hnil
      obtain ⟨i, hi⟩ := List.getElem?_of_mem hmem
      have hilen : i < text.length := by
        by_contra hge
        rw [List.getElem?_eq_none (by omega)] at hi
        exact Option.noConfusion hi
      have hall := chunkLoop_nil_ws text text.length 0 (by omega)
        (List.isEmpty_iff.mp hloopnil) i (by omega) hilen ch hi
      rw [hall] at hws
      exact Bool.noConfusion hws
    · rw [if_neg hloopnil] at hnil
      rw [hnil] at hloopnil
      exact hloopnil rfl

theorem chunkLoop_hello_5 : chunkLoop (("hello").toList) 5 = [] := by
  rw [chunkLoop, dif_neg (by decide : ¬(5 : Nat) < (("hello").toList).length)]

theorem chunkLoop_hello_0 : chunkLoop (("hello").toList) 0 = [("hello").toList] := by
  rw [chunkLoop, dif_pos (by decide : (0 : Nat) < (("hello").toList).length)]
  have hnext : chunkNextStart (("hello").toList) 0 = 5 := by decide
  rw [hnext, chunkLoop_hello_5]
  decide

/-- C6 (counterexample): on the five-character text hello, chunkText returns
    one chunk of length 5, so chunks are not slices of exactly 800
    characters. -/
theorem chunkText_counterexample : ∃ c ∈ chunkText (("hello").toList), c.length ≠ 800 := by
  have h2 : chunkText (("hello").toList) = [("hello").toList] := by
    unfold chunkText
    rw [chunkLoop_hello_0]
    decide
  rw [h2]
  refine ⟨("hello").toList, List.mem_singleton.mpr rfl, by decide⟩

/-- C7: an uploaded document starts as pending with risk score 0; the
    pipeline first sets the status to processing and ends with status
    completed (carrying the computed risk score, summary and document type)
    on success, or with status failed and no other field changed, re-throwing
    the error; no run ends in status processing. -/
theorem pipelineStatus_spec : ∀ (dt : Str) (outcome : Except Unit PipelineResult),
    (createdDocument dt).status = .pending ∧ (createdDocument dt).riskScore = 0 ∧
    (pipelineUpdates outcome).head? = some (.setStatus .processing) ∧
    ((runPipelineDoc (createdDocument dt) outcome).1.status = .completed ∨
     (runPipelineDoc (createdDocument dt) outcome).1.status = .failed) ∧
    (runPipelineDoc (createdDocument dt) outcome).1.status ≠ .processing ∧
    (∀ r, outcome = .ok r →
      (runPipelineDoc (createdDocument dt) outcome).1 =
        { status := .completed, riskScore := r.riskScore,
          summary := some r.summary, documentType := r.documentType }) ∧
    (∀ e, outcome = .error e →
      (runPipelineDoc (createdDocument dt) outcome).1 =
        { createdDocument dt with status := .failed } ∧
      (runPipelineDoc (createdDocument dt) outcome).2 = .error e) := by
  intro dt outcome
  cases outcome with
  | ok r =>
      refine ⟨rfl, rfl, rfl, Or.inl rfl, by simp [runPipelineDoc, applyUpdates, pipelineUpdates, applyUpdate], ?_, ?_⟩
      · intro r2 hr
        cases hr
        rfl
      · intro e he
        cases he
  | error e =>
      refine ⟨rfl, rfl, rfl, Or.inr rfl, by simp [runPipelineDoc, applyUpdates, pipelineUpdates, applyUpdate], ?_, ?_⟩
      · intro r2 hr
        cases hr
      · intro e2 he
        cases he
        exact ⟨rfl, rfl⟩

/-- C8 (code bug): on a contract containing the words unlimited liability
    the pipeline inserts a flag with severity critical, which violates the
    schema enum low, medium, high declared by the RiskFlag model. -/
theorem riskFlagSeverity_bug : (pipelineRiskFlags [] unlimitedContractText none).any
    (fun f => f.severity == .critical && !riskFlagSchemaValid f) = true := by decide

/-- C9: one iteration of the chunkText loop strictly increases the start
    position: to the text length on the final slice, by at least 301 when the
    slice is cut at a word boundary past the half-size mark, and by exactly
    700 otherwise; hence the loop terminates (chunkLoop is total by
    well-founded recursion on this measure). -/
theorem chunkText_termination : ∀ (text : Str) (start : Nat), start < text.length →
    start < chunkNextStart text start ∧
    (text.length ≤ start + 800 → chunkNextStart text start = text.length) ∧
    (start + 800 < text.length → chunkWordCut text start = true →
       start + 301 ≤ chunkNextStart text start) ∧
    (start + 800 < text.length → chunkWordCut text start = false →
       chunkNextStart text start = start + 700) := by
  intro text start h
  refine ⟨chunkNextStart_gt text start h, ?_, ?_, ?_⟩
  · intro hle
    unfold chunkNextStart chunkSliceEnd
    have hmin : min (start + 800) text.length = text.length := by omega
    rw [hmin, if_neg (lt_irrefl text.length)]
  · intro hbig hcut
    unfold chunkNextStart chunkSliceEnd
    unfold chunkWordCut chunkSliceEnd at hcut
    have hmin : min (start + 800) text.length = start + 800 := by omega
    rw [hmin] at hcut ⊢
    rw [if_pos hbig]
    cases hls : lastIndexOfSpace (jsSlice text start (start + 800)) with
    | none => rw [hls] at hcut; simp at hcut
    | some ls =>
        rw [hls] at hcut
        simp only [decide_eq_true_eq] at hcut
        show start + 301 ≤ if 400 < ls then start + ls + 1 - 100 else start + 800 - 100
        rw [if_pos hcut]
        omega
  · intro hbig hcut
    unfold chunkNextStart chunkSliceEnd
    unfold chunkWordCut chunkSliceEnd at hcut
    have hmin : min (start + 800) text.length = start + 800 := by omega
    rw [hmin] at hcut ⊢
    rw [if_pos hbig]
    cases hls : lastIndexOfSpace (jsSlice text start (start + 800)) with
    | none =>
        show start + 800 - 100 = start + 700
        omega
    | some ls =>
        rw [hls] at hcut
        simp only [decide_eq_false_iff_not] at hcut
        show (if 400 < ls then start + ls + 1 - 100 else start + 800 - 100) = start + 700
        rw [if_neg hcut]
        omega

/-- C10: localEmbed always returns exactly 64 non-negative real entries
    (finiteness is intrinsic to the real-valued model) whose Euclidean norm
    is at most 1, and exactly 1 whenever the input contains a token longer
    than one character; embedText delegates to localEmbed, so the query
    embedding is never empty and vectorSearch always takes the linear-scan
    branch, never the empty-embedding fallback. -/
theorem localEmbed_spec : ∀ t : Str,
    (localEmbed t).length = 64 ∧
    (∀ x ∈ localEmbed t, 0 ≤ x) ∧
    Real.sqrt (((localEmbed t).map (fun x => x * x)).sum) ≤ 1 ∧
    (localTokens t ≠ [] → Real.sqrt (((localEmbed t).map (fun x => x * x)).sum) = 1) ∧
    embedText t = localEmbed t ∧
    (∀ (db : List EmbeddingDoc) (ids : List Str) (topK : Nat),
      vectorSearch db ids t topK =
        scanSearch (db.filter (fun d => ids.any (fun i => i == d.documentId))) t topK) := by
  intro t
  refine ⟨by rw [← embedText_length t]; rfl, ?_, ?_, ?_, rfl, fun db ids k => vectorSearch_eq_scan db ids t k⟩
  · intro x hx
    unfold localEmbed at hx
    rcases List.mem_map.mp hx with ⟨v, _, rfl⟩
    exact div_nonneg (Nat.cast_nonneg v) (le_of_lt (embedNorm_pos t))
  · calc Real.sqrt (((localEmbed t).map (fun x => x * x)).sum)
        ≤ Real.sqrt 1 := Real.sqrt_le_sqrt (localEmbed_sumsq_le_one t)
      _ = 1 := Real.sqrt_one
  · intro h
    rw [localEmbed_sumsq_eq_one t h, Real.sqrt_one]


/-- Witness for C4: the amended fallback equations applied at concrete
    inputs, discharging the empty and the non-empty AI-field hypotheses. -/
theorem pdfExtractionFallback_witness :
    (storedPdfFields [] (("x").toList) =
      (if detectDocumentType (("x").toList) = .identity_document then
        idAugment (extractFieldsFromText (("x").toList))
          (extractIdFieldsFromText (("x").toList))
      else extractFieldsFromText (("x").toList))) ∧
    (storedPdfFields [sampleAiField] (("x").toList) =
      (if detectDocumentType (("x").toList) = .identity_document then
        idAugment ([sampleAiField] ++ (extractFieldsFromText (("x").toList)).filter
          (fun h => !([sampleAiField].any
            (fun a => jsLower a.fieldName == jsLower h.fieldName))))
          (extractIdFieldsFromText (("x").toList))
      else [sampleAiField] ++ (extractFieldsFromText (("x").toList)).filter
          (fun h => !([sampleAiField].any
            (fun a => jsLower a.fieldName == jsLower h.fieldName))))) :=
  ⟨(pdfExtractionFallback_amended [] [] [] (("x").toList) []).1 rfl,
   (pdfExtractionFallback_amended [sampleAiField] [] [] (("x").toList) []).2.1 (by decide)⟩

/-- Witness for C6: the two-character text hi contains a non-whitespace
    character, so chunkText returns at least one chunk. -/
theorem chunkText_witness : chunkText (("hi").toList) ≠ [] :=
  (chunkText_amended (("hi").toList)).2.2 ⟨'h', by decide, by decide⟩

/-- Witness for C7: the status transitions evaluated on a concrete document
    for a failing and for a succeeding pipeline run. -/
theorem pipelineStatus_witness :
    ((runPipelineDoc (createdDocument (("contract").toList)) (Except.error ())).1 =
      { createdDocument (("contract").toList) with status := .failed } ∧
     (runPipelineDoc (createdDocument (("contract").toList)) (Except.error ())).2 =
      Except.error ()) ∧
    (runPipelineDoc (createdDocument (("contract").toList))
        (Except.ok ⟨35, ("ok").toList, ("contract").toList⟩)).1 =
      { status := .completed, riskScore := 35, summary := some (("ok").toList),
        documentType := ("contract").toList } :=
  ⟨(pipelineStatus_spec (("contract").toList) (Except.error ())).2.2.2.2.2.2 () rfl,
   (pipelineStatus_spec (("contract").toList)
      (Except.ok ⟨35, ("ok").toList, ("contract").toList⟩)).2.2.2.2.2.1
      ⟨35, ("ok").toList, ("contract").toList⟩ rfl⟩

/-- Witness for C9: the progress bounds evaluated at concrete texts covering
    the final-slice case, the no-word-boundary case and the word-boundary
    case. -/
theorem chunkText_termination_witness :
    (0 < chunkNextStart (("a").toList) 0 ∧
     chunkNextStart (("a").toList) 0 = (("a").toList).length) ∧
    chunkNextStart (List.replicate 900 'a') 0 = 0 + 700 ∧
    0 + 301 ≤ chunkNextStart (List.replicate 450 'a' ++ ' ' :: List.replicate 450 'b') 0 :=
  ⟨⟨(chunkText_termination (("a").toList) 0 (by decide)).1,
    (chunkText_termination (("a").toList) 0 (by decide)).2.1 (by decide)⟩,
   (chunkText_termination (List.replicate 900 'a') 0 (by decide)).2.2.2
     (by decide) (by decide),
   (chunkText_termination (List.replicate 450 'a' ++ ' ' :: List.replicate 450 'b') 0
     (by decide)).2.2.1 (by decide) (by decide)⟩

/-- Witness for C10: the text hello world tokenises to two long tokens, so
    its embedding has Euclidean norm exactly 1. -/
theorem localEmbed_witness :
    Real.sqrt (((localEmbed (("hello world").toList)).map (fun x => x * x)).sum) = 1 :=
  (localEmbed_spec (("hello world").toList)).2.2.2.1 (by decide)

end DocIntel
